import Mathlib

set_option maxHeartbeats 1000000

namespace Styletelling

/-! Shallow embedding of the styletelling-ai query pipeline, cache runtime
and support utilities, translated from the Python sources
(`data/cache_runtime.py`, `run_user_query.py`, `utils/execute_prompt.py`,
`utils/util_functions.py`, `utils/streamlit_utils.py`). -/

/-! ## Dynamic value model

The pipeline threads JSON-like Python values (`None`, booleans, ints,
strings, lists, dicts) between the prompt executor, the cache and the
ranker.  `PVal` models that value domain.  Dictionaries are association
lists with string keys and at most one binding per key (Python dict
semantics); lookup returns the first binding. -/

inductive PVal where
  | none
  | bool (b : Bool)
  | int (n : Int)
  | str (s : String)
  | list (items : List PVal)
  | dict (entries : List (String × PVal))
deriving Repr

mutual

def pvalBEq : PVal → PVal → Bool
  | .none, .none => true
  | .bool a, .bool b => a == b
  | .int a, .int b => a == b
  | .str a, .str b => a == b
  | .list a, .list b => pvalListBEq a b
  | .dict a, .dict b => pvalEntriesBEq a b
  | _, _ => false

def pvalListBEq : List PVal → List PVal → Bool
  | [], [] => true
  | a :: as, b :: bs => pvalBEq a b && pvalListBEq as bs
  | _, _ => false

def pvalEntriesBEq : List (String × PVal) → List (String × PVal) → Bool
  | [], [] => true
  | (ka, va) :: as, (kb, vb) :: bs => ka == kb && pvalBEq va vb && pvalEntriesBEq as bs
  | _, _ => false

end

mutual

theorem pvalBEq_iff : ∀ a b : PVal, pvalBEq a b = true ↔ a = b
  | .none, b => by cases b <;> simp [pvalBEq]
  | .bool x, b => by cases b <;> simp [pvalBEq]
  | .int x, b => by cases b <;> simp [pvalBEq]
  | .str x, b => by cases b <;> simp [pvalBEq]
  | .list x, b => by
      cases b <;> simp only [pvalBEq, PVal.list.injEq] <;> try simp
      exact pvalListBEq_iff x _
  | .dict x, b => by
      cases b <;> simp only [pvalBEq, PVal.dict.injEq] <;> try simp
      exact pvalEntriesBEq_iff x _

theorem pvalListBEq_iff : ∀ a b : List PVal, pvalListBEq a b = true ↔ a = b
  | [], [] => by simp [pvalListBEq]
  | [], _ :: _ => by simp [pvalListBEq]
  | _ :: _, [] => by simp [pvalListBEq]
  | x :: xs, y :: ys => by
      simp only [pvalListBEq, Bool.and_eq_true, List.cons.injEq]
      rw [pvalBEq_iff x y, pvalListBEq_iff xs ys]

theorem pvalEntriesBEq_iff : ∀ a b : List (String × PVal), pvalEntriesBEq a b = true ↔ a = b
  | [], [] => by simp [pvalEntriesBEq]
  | [], _ :: _ => by simp [pvalEntriesBEq]
  | _ :: _, [] => by simp [pvalEntriesBEq]
  | (k, v) :: xs, (k2, v2) :: ys => by
      simp only [pvalEntriesBEq, Bool.and_eq_true, beq_iff_eq, List.cons.injEq,
        Prod.mk.injEq, and_assoc]
      rw [pvalBEq_iff v v2, pvalEntriesBEq_iff xs ys]

end

instance : DecidableEq PVal := fun a b =>
  decidable_of_iff (pvalBEq a b = true) (pvalBEq_iff a b)

/-- Python truthiness for the modeled value domain (`bool(v)`): `None`,
`False`, `0`, the empty string, the empty list and the empty dict are
falsy, everything else is truthy. -/
def PVal.truthy : PVal → Bool
  | .none => false
  | .bool b => b
  | .int n => n != 0
  | .str s => !s.isEmpty
  | .list l => !l.isEmpty
  | .dict l => !l.isEmpty

def PVal.isDict : PVal → Bool
  | .dict _ => true
  | _ => false

def PVal.isNone : PVal → Bool
  | .none => true
  | _ => false

/-- Python hashability for the modeled value domain: lists and dicts are
unhashable (using one as a dict key or in a set-membership test raises
TypeError), every other modeled value is hashable. -/
def PVal.hashable : PVal → Bool
  | .list _ => false
  | .dict _ => false
  | _ => true

/-- Python equality of a modeled value against a string constant.  Among
the modeled values only a `str` can compare equal to a Python `str`. -/
def PVal.eqStr : PVal → String → Bool
  | .str s, t => s == t
  | _, _ => false

/-- First-binding lookup in an association list, i.e. Python dict access
on a dict that holds at most one binding per key. -/
def lookupEntry {α : Type} (entries : List (String × α)) (k : String) : Option α :=
  (entries.find? (fun e => e.1 == k)).map (fun e => e.2)

/-- Python `dict.get(k)` on a dict of modeled values: the binding if
present, `None` otherwise. -/
def dget (entries : List (String × PVal)) (k : String) : PVal :=
  (lookupEntry entries k).getD .none

/-! ## Query canonicalizer (`data/cache_runtime.py`, `canonicalize_query`)

The Python code applies, in order: `unicodedata.normalize("NFKC", ·)`,
`str.casefold`, NFD decomposition with all combining marks (category Mn)
dropped, whitespace collapse (`" ".join(text.strip().split())`), removal
of every character outside `[a-z0-9 ]` (`re.sub`), and a final `strip`.

The Unicode tables are modeled exactly on a supported character set:
ASCII plus the precomposed Latin letters of `accentTable` (the letters
occurring in the Portuguese-language data of this repository).  On that
set NFKC is the identity, casefold is the ASCII/Latin lowercase map, and
NFD-decompose-then-drop-Mn maps each precomposed accented letter to its
base letter. -/

/-- Accented Latin letters supported by the model: (uppercase, lowercase,
base letter after removing the combining mark). -/
def accentTable : List (Char × Char × Char) :=
  [('À', 'à', 'a'), ('Á', 'á', 'a'), ('Â', 'â', 'a'), ('Ã', 'ã', 'a'), ('Ä', 'ä', 'a'),
   ('Ç', 'ç', 'c'),
   ('É', 'é', 'e'), ('È', 'è', 'e'), ('Ê', 'ê', 'e'), ('Ë', 'ë', 'e'),
   ('Í', 'í', 'i'), ('Ì', 'ì', 'i'), ('Î', 'î', 'i'), ('Ï', 'ï', 'i'),
   ('Ñ', 'ñ', 'n'),
   ('Ó', 'ó', 'o'), ('Ò', 'ò', 'o'), ('Ô', 'ô', 'o'), ('Õ', 'õ', 'o'), ('Ö', 'ö', 'o'),
   ('Ú', 'ú', 'u'), ('Ù', 'ù', 'u'), ('Û', 'û', 'u'), ('Ü', 'ü', 'u')]

/-- Unicode NFKC normalization restricted to the supported character set,
on which it is the identity. -/
def nfkc (l : List Char) : List Char := l

/-- One-character `str.casefold`: ASCII uppercase and the supported
accented uppercase letters map to their lowercase forms; every other
supported character is already casefolded. -/
def casefoldChar (c : Char) : Char :=
  if 'A' ≤ c && c ≤ 'Z' then Char.ofNat (c.toNat + 32)
  else
    match accentTable.find? (fun e => e.1 == c) with
    | some e => e.2.1
    | Option.none => c

/-- NFD decomposition followed by removal of category-Mn code points,
restricted to the supported set: each precomposed accented letter becomes
its base letter, everything else is unchanged. -/
def stripMark (c : Char) : Char :=
  match accentTable.find? (fun e => e.2.1 == c) with
  | some e => e.2.2
  | Option.none => c

/-- Python `str.split()` / `str.strip()` whitespace class, restricted to
the supported set (the ASCII whitespace characters). -/
def pyIsSpace (c : Char) : Bool :=
  c == ' ' || c == '\t' || c == '\n' || c == '\r' || c == Char.ofNat 11 || c == Char.ofNat 12

/-- Maximal runs of non-whitespace characters, as returned by Python
`str.split()` with no argument. -/
def pyWordsAux : List Char → List Char → List (List Char)
  | [], acc => if acc.isEmpty then [] else [acc.reverse]
  | c :: cs, acc =>
    if pyIsSpace c then
      if acc.isEmpty then pyWordsAux cs [] else acc.reverse :: pyWordsAux cs []
    else pyWordsAux cs (c :: acc)

def pyWords (l : List Char) : List (List Char) := pyWordsAux l []

/-- Python `" ".join(text.strip().split())`: collapse whitespace runs to
single spaces and trim. -/
def collapseWs (l : List Char) : List Char := List.intercalate [' '] (pyWords l)

/-- Python `str.strip()`: drop leading and trailing whitespace. -/
def stripChars (l : List Char) : List Char :=
  ((l.dropWhile pyIsSpace).reverse.dropWhile pyIsSpace).reverse

def pyStripStr (s : String) : String := String.mk (stripChars s.data)

/-- Character class of the regex `[^a-z0-9 ]+` complement: the characters
`re.sub` keeps. -/
def isAllowed (c : Char) : Bool :=
  ('a' ≤ c && c ≤ 'z') || ('0' ≤ c && c ≤ '9') || c == ' '

/-- Embedding of `canonicalize_query` (data/cache_runtime.py, lines
20-29): NFKC normalize, casefold, strip combining marks, collapse
whitespace, drop characters outside `[a-z0-9 ]`, final strip. -/
def canonicalize_query (s : String) : String :=
  let t1 := (nfkc s.data).map casefoldChar
  let t2 := t1.map stripMark
  let t3 := collapseWs t2
  let t4 := t3.filter isAllowed
  String.mk (stripChars t4)

/-! ## Filename validation (`data/cache_runtime.py`, `validate_filename`) -/

/-- Prefix test on character lists (`s.startswith(p)` when applied to the
full lists). -/
def listPrefixTest : List Char → List Char → Bool
  | [], _ => true
  | _ :: _, [] => false
  | a :: as, b :: bs => a == b && listPrefixTest as bs

/-- Python `s.startswith(p)`. -/
def strStartsWith (s p : String) : Bool := listPrefixTest p.data s.data

/-- Python `s.endswith(p)`. -/
def strEndsWith (s p : String) : Bool := listPrefixTest p.data.reverse s.data.reverse

/-- Substring test for `".." in name`. -/
def hasDotDot : List Char → Bool
  | '.' :: '.' :: _ => true
  | _ :: cs => hasDotDot cs
  | [] => false

/-- Character class of the regex `^[A-Za-z0-9._-]+\.json$`. -/
def fnameAllowed (c : Char) : Bool :=
  ('A' ≤ c && c ≤ 'Z') || ('a' ≤ c && c ≤ 'z') || ('0' ≤ c && c ≤ '9') ||
    c == '.' || c == '_' || c == '-'

/-- Anchored match of `^[A-Za-z0-9._-]+\.json$`: every character in the
class, the string ends in `.json`, and at least one character precedes
that suffix. -/
def matchesFilenameRe (name : String) : Bool :=
  name.data.all fnameAllowed && strEndsWith name ".json" && decide (6 ≤ name.data.length)

/-- Embedding of `validate_filename` (data/cache_runtime.py, lines
32-42): length bound, `.json` suffix, no leading dot, no `..` segment,
character allowlist. -/
def validate_filename (name : String) : Bool :=
  if 80 < name.data.length then false
  else if !strEndsWith name ".json" then false
  else if strStartsWith name "." || hasDotDot name.data then false
  else if !matchesFilenameRe name then false
  else true

/-! ## Robust int conversion (`utils/util_functions.py`, `to_int_safe`)

The Python function is total: every failure of the conversion attempts is
caught and mapped to the default.  `parseDecTrunc` models the
`int(float(s))` branch for plain decimal literals (optional sign, digits,
optional fractional part), on which `int(float(s))` is truncation toward
zero; a string outside that form contributes the default, exactly as the
Python fallback does when `float` fails or `int` rejects the result (for
a string without any digit, `float(s)` either fails or yields an
inf/nan value that `int` rejects, so the Python function also returns
the default there). -/

def digitsVal (l : List Char) : Nat :=
  l.foldl (fun acc c => acc * 10 + (c.toNat - 48)) 0

/-- Optional sign of a decimal literal. -/
def stripSign : List Char → Bool × List Char
  | '-' :: r => (true, r)
  | '+' :: r => (false, r)
  | l => (false, l)

/-- Well-formedness of the unsigned part of a plain decimal literal:
digits, optionally followed by `.` and further digits, with at least one
digit somewhere. -/
def decOk (rest : List Char) : Bool :=
  match rest.dropWhile Char.isDigit with
  | [] => !(rest.takeWhile Char.isDigit).isEmpty
  | '.' :: fr =>
    (!(rest.takeWhile Char.isDigit).isEmpty || !fr.isEmpty) && fr.all Char.isDigit
  | _ => false

/-- Parse of a plain decimal literal, truncated toward zero. -/
def parseDecTrunc (l : List Char) : Option Int :=
  let sr := stripSign l
  if decOk sr.2 then
    let n : Int := Int.ofNat (digitsVal (sr.2.takeWhile Char.isDigit))
    some (if sr.1 then -n else n)
  else Option.none

/-- Embedding of `to_int_safe` (utils/util_functions.py, lines 8-27) over
the modeled value domain.  `None` maps to the default, booleans to 0/1,
ints to themselves, strings through `str.strip` and the decimal parse,
and lists/dicts (whose `str()` form never parses as a float) to the
default.  The Lean function is total by construction, matching the
catch-all `except` of the source. -/
def to_int_safe (v : PVal) (d : Int) : Int :=
  match v with
  | .none => d
  | .bool b => if b then 1 else 0
  | .int n => n
  | .str s =>
    let t := pyStripStr s
    if t.isEmpty then d else (parseDecTrunc t.data).getD d
  | .list _ => d
  | .dict _ => d

/-! ## Manifest loading (`data/cache_runtime.py`, `read_rows`)

A CSV data row is modeled as its `query` and `file` cells (the values
`row.get("query") or ""` and `row.get("file") or ""` produce).
`read_rows` scans the rows with running maps of seen canonical keys and
seen filenames, numbering rows from 2 (`enumerate(reader, start=2)`), and
raises a `ValueError` naming the row on the first defect.  The raised
messages are modeled structurally by `RowError`, preserving exactly the
data interpolated into each f-string of the source. -/

structure QueryRow where
  line_no : Nat
  query_raw : String
  query_norm : String
  filename : String
deriving Repr, DecidableEq

/-- Structured form of the `ValueError` messages of `read_rows`: row
number plus the data the message reports. -/
inductive RowError where
  | emptyField (line_no : Nat)
  | invalidFilename (line_no : Nat) (name : String)
  | dupKey (line_no : Nat) (key : String) (first : Nat)
  | dupFile (line_no : Nat) (name : String) (first : Nat)
deriving Repr, DecidableEq

/-- Row number a `read_rows` error reports. -/
def RowError.line : RowError → Nat
  | .emptyField i => i
  | .invalidFilename i _ => i
  | .dupKey i _ _ => i
  | .dupFile i _ _ => i

/-- Scan loop of `read_rows`: `i` is the current row number, `seenKeys`
and `seenFiles` the accumulated `seen_keys` / `seen_files` dicts. -/
def readRowsAux : List (String × String) → Nat → List (String × Nat) → List (String × Nat) →
    Except RowError (List QueryRow)
  | [], _, _, _ => .ok []
  | (q, f) :: rest, i, seenKeys, seenFiles =>
    let raw_query := pyStripStr q
    let filename := pyStripStr f
    if raw_query.isEmpty || filename.isEmpty then .error (.emptyField i)
    else if !validate_filename filename then .error (.invalidFilename i filename)
    else
      let key := canonicalize_query raw_query
      match lookupEntry seenKeys key with
      | some j => .error (.dupKey i key j)
      | Option.none =>
        match lookupEntry seenFiles filename with
        | some j => .error (.dupFile i filename j)
        | Option.none =>
          (readRowsAux rest (i + 1) ((key, i) :: seenKeys) ((filename, i) :: seenFiles)).map
            (fun l => ⟨i, raw_query, key, filename⟩ :: l)

/-- Embedding of `read_rows` (data/cache_runtime.py, lines 57-94). -/
def read_rows (rows : List (String × String)) : Except RowError (List QueryRow) :=
  readRowsAux rows 2 [] []

/-! ## Cache read and write (`data/cache_runtime.py`) -/

/-- State of one file of the cache directory, as observed by
`json.load`: absent, present but not parseable as JSON, or parseable to
a value. -/
inductive FileState where
  | missing
  | unparsable
  | parsed (v : PVal)
deriving Repr, DecidableEq

/-- Python `None`-returning values collapse to `Option.none`: the model
of a Python function that returns either `None` or a value. -/
def pyOpt (v : PVal) : Option PVal :=
  match v with
  | .none => Option.none
  | v => some v

/-- Embedding of `get_cached_result` (data/cache_runtime.py, lines
166-189).  `index` is the canonical-key to filename manifest, `fs` the
cache directory.  The source wraps the read and parse in a catch-all
`try`, so every IO or parse failure, and an envelope that is not a dict
(whose `.get` would raise `AttributeError`), is a miss; the stored
`query_norm` is never compared against `canonical_key` for the purpose of
the returned value (both branches of the best-effort check return
`envelope.get("result")`). -/
def get_cached_result (canonical_key : String) (index : List (String × String))
    (fs : String → FileState) : Option PVal :=
  match lookupEntry index canonical_key with
  | Option.none => Option.none
  | some filename =>
    if filename.isEmpty then Option.none
    else
      match fs filename with
      | .missing => Option.none
      | .unparsable => Option.none
      | .parsed envelope =>
        match envelope with
        | .dict es => pyOpt (dget es "result")
        | _ => Option.none

/-- Sibling temp path of a destination: `path.with_suffix(path.suffix +
".tmp")` appends `.tmp` to the filename. -/
def tmpName (filename : String) : String := filename ++ ".tmp"

/-- Pointwise update of the modeled cache directory. -/
def fsUpdate (fs : String → FileState) (n : String) (st : FileState) : String → FileState :=
  fun m => if m = n then st else fs m

/-- Embedding of `write_cache` (data/cache_runtime.py, lines 141-163).
`persisted` is the file state the physical write leaves on disk for this
envelope — `FileState.parsed (PVal.dict envelope)` on a healthy
filesystem, possibly `unparsable` or `missing` on the "weird FS" the
re-parse guards against.  The result pairs the outcome (`ok` with the
destination path, or the propagated error message) with the final state
of the cache directory: on the sanity failure nothing is touched;
otherwise the envelope is written to the sibling temp path, atomically
renamed over the destination (`os.replace`), and re-parsed, a re-parse
failure propagating as an error. -/
def write_cache (fs : String → FileState) (filename : String)
    (envelope : List (String × PVal)) (persisted : FileState) :
    Except String String × (String → FileState) :=
  if (dget envelope "query_norm").truthy && !(dget envelope "result").isDict then
    (.error "Envelope missing or invalid result dict", fs)
  else
    let fs1 := fsUpdate fs (tmpName filename) persisted
    let fs2 := fsUpdate (fsUpdate fs1 (tmpName filename) .missing) filename persisted
    match persisted with
    | .parsed _ => (.ok filename, fs2)
    | .missing => (.error "reopen failed: file missing", fs2)
    | .unparsable => (.error "reopen failed: invalid JSON", fs2)

/-! ## Product ranker (`run_user_query.py`, `search_products_with_details`)

The relational store is modeled by `DB`, with the schema the SQL of the
source assumes: `attributes(id, name)`,
`products_taxonomy(product_id, attribute_id, value_id, score)` and
`products(product_id, name, price, image_url, category, description)`.
The single aggregate query is embedded denotationally: the `CASE` maps
each taxonomy row to `score * weight` of the first input triple matching
its `(attribute_id, value_id)` pair (0 when none matches), `GROUP BY`
sums per product, the join attaches product rows, the optional `WHERE`
filters one category, `ORDER BY ... DESC` sorts by aggregate score
descending (SQLite leaves tie order unspecified; the embedding fixes one
permitted order via a stable merge sort), and `LIMIT` truncates. -/

/-- Uncaught Python exceptions the embedded pipeline can raise. -/
inductive PyErr where
  | attributeError (msg : String)
  | keyError (k : String)
  | typeError (msg : String)
  | bindError
deriving Repr, DecidableEq

structure ProductRec where
  product_id : Int
  name : String
  price : Int
  image_url : String
  category : String
  description : String
deriving Repr, DecidableEq

structure TaxonomyRow where
  product_id : Int
  attribute_id : Int
  value_id : Int
  score : Int
deriving Repr, DecidableEq

structure DB where
  attributes : List (Int × String)
  products_taxonomy : List TaxonomyRow
  products : List ProductRec
deriving Repr

structure AttrInfo where
  attr_name : String
  table : String
deriving Repr, DecidableEq

/-- The `ATTRIBUTE_INFO` constant of run_user_query.py. -/
def ATTRIBUTE_INFO : List (String × AttrInfo) :=
  [("Material", ⟨"material", "material"⟩),
   ("Cor", ⟨"color", "color"⟩),
   ("Estrutura", ⟨"structure", "structure"⟩),
   ("Linha", ⟨"line", "line"⟩),
   ("Textura", ⟨"texture", "texture"⟩),
   ("Superfície", ⟨"surface", "surface"⟩),
   ("Mensagem", ⟨"message", "message_titles"⟩)]

/-- Embedding of `normalize_attribute_name` (run_user_query.py, lines
75-77): the part before the first `|` (`raw_attr.split('|')[0]`),
stripped. -/
def normalize_attribute_name (raw : String) : String :=
  pyStripStr (String.mk (raw.data.takeWhile (fun c => c != '|')))

/-- Row produced by the final SELECT of the ranker, after the price
formatting loop: the columns of `dict(r)` in order. -/
structure RankedRow where
  product_id : Int
  name : String
  price : String
  image_url : String
  category : String
  description : String
  relevance_score : Int
deriving Repr, DecidableEq

/-- Decimal digits of a natural number. -/
def natDigitsAux : Nat → Nat → List Char
  | 0, _ => []
  | fuel + 1, n => if n = 0 then [] else natDigitsAux fuel (n / 10) ++ [Char.ofNat (48 + n % 10)]

def natDigits (n : Nat) : List Char :=
  if n = 0 then ['0'] else natDigitsAux (n + 1) n

/-- Groups of three characters taken from the front (applied to a
reversed digit list, so effectively from the right). -/
def chunk3 : List Char → List (List Char)
  | a :: b :: c :: d :: rest => [a, b, c] :: chunk3 (d :: rest)
  | l => [l]

/-- Thousands grouping with `.` separators, as the Python
`f"{v:,.2f}"` plus the `,` / `.` swap produces for the integer part. -/
def formatThousands (n : Nat) : String :=
  String.mk (List.intercalate ['.'] (((chunk3 (natDigits n).reverse).map List.reverse).reverse))

def twoDigits (n : Nat) : String :=
  if n < 10 then "0" ++ String.mk (natDigits n) else String.mk (natDigits n)

/-- Embedding of the price conversion (run_user_query.py, lines 140-143):
integer minor units to `"R$ 1.234,56"`, i.e. `f"R$ {price/100:,.2f}"`
followed by the separator swap, modeled exactly for the integer cent
values on which the double division is exact. -/
def formatPriceBRL (cents : Int) : String :=
  let sign := if cents < 0 then "-" else ""
  let a := cents.natAbs
  "R$ " ++ sign ++ formatThousands (a / 100) ++ "," ++ twoDigits (a % 100)

/-- Triple extraction loop of `search_products_with_details`
(run_user_query.py, lines 91-106).  Each block is a dynamic dict from the
prompt executor: a non-dict block raises (`block.get`), a non-string
`attribute` value raises inside `normalize_attribute_name`
(`raw_attr.split`); an unknown attribute key or an attribute name absent
from the `attributes` table skips the block; each of the three value
slots contributes a triple when both its id and score are present
(non-`None`), with `to_int_safe` coercion. -/
def searchTriplesOf (db : DB) : List PVal → Except PyErr (List (Int × Int × Int))
  | [] => .ok []
  | block :: rest => do
    let tail ← searchTriplesOf db rest
    match block with
    | .dict es =>
      match (lookupEntry es "attribute").getD (.str "") with
      | .str raw =>
        let key := normalize_attribute_name raw
        match lookupEntry ATTRIBUTE_INFO key with
        | Option.none => .ok tail
        | some info =>
          match db.attributes.find? (fun a => a.2 == info.attr_name) with
          | Option.none => .ok tail
          | some a =>
            let attr_id := a.1
            let slot := fun (i : Nat) =>
              let vid := dget es ("value_" ++ String.mk (natDigits i) ++ "_id")
              let vscore := dget es ("value_" ++ String.mk (natDigits i) ++ "_score")
              if !vid.isNone && !vscore.isNone then
                [(attr_id, to_int_safe vid 0, to_int_safe vscore 0)]
              else []
            .ok (slot 1 ++ slot 2 ++ slot 3 ++ tail)
      | _ => .error (.attributeError "split on non-string attribute")
    | _ => .error (.attributeError "get on non-dict block")

/-- Aggregate `CASE` value of one taxonomy row: `score * weight` of the
first matching triple, else 0. -/
def caseValue (triples : List (Int × Int × Int)) (row : TaxonomyRow) : Int :=
  match triples.find? (fun t => t.1 == row.attribute_id && t.2.1 == row.value_id) with
  | some t => row.score * t.2.2
  | Option.none => 0

/-- Distinct values keeping first occurrences (the `GROUP BY` key set). -/
def dedupFirstAux : List Int → List Int → List Int
  | [], _ => []
  | x :: xs, seen =>
    if seen.contains x then dedupFirstAux xs seen else x :: dedupFirstAux xs (x :: seen)

def dedupFirst (l : List Int) : List Int := dedupFirstAux l []

/-- Stable descending insertion by aggregate score: one order compatible
with `ORDER BY relevance_score DESC` (SQLite leaves the relative order of
equal scores unspecified). -/
def insertDesc (x : ProductRec × Int) : List (ProductRec × Int) → List (ProductRec × Int)
  | [] => [x]
  | y :: ys => if x.2 < y.2 then y :: insertDesc x ys else x :: y :: ys

def sortDesc : List (ProductRec × Int) → List (ProductRec × Int)
  | [] => []
  | x :: xs => insertDesc x (sortDesc xs)

/-- The ranked subquery, join, filter, sort and limit of
`search_products_with_details` after the triples are known to be
non-empty (run_user_query.py, lines 112-146). -/
def searchCore (db : DB) (triples : List (Int × Int × Int)) (category_name : Option String)
    (lim : Nat) : List RankedRow :=
  let pids := dedupFirst (db.products_taxonomy.map (fun r => r.product_id))
  let ranked := pids.map (fun pid =>
    (pid, ((db.products_taxonomy.filter (fun r => r.product_id == pid)).map
      (caseValue triples)).sum))
  let joined := ranked.flatMap (fun pr =>
    (db.products.filter (fun p => p.product_id == pr.1)).map (fun p => (p, pr.2)))
  let filtered :=
    match category_name with
    | some c => joined.filter (fun (x : ProductRec × Int) => x.1.category == c)
    | Option.none => joined
  let sorted := sortDesc filtered
  (sorted.take lim).map (fun (x : ProductRec × Int) =>
    { product_id := x.1.product_id, name := x.1.name, price := formatPriceBRL x.1.price,
      image_url := x.1.image_url, category := x.1.category, description := x.1.description,
      relevance_score := x.2 })

/-- Embedding of `search_products_with_details` (run_user_query.py, lines
80-146) with a string (or absent) category filter and a non-negative SQL
`LIMIT`, as every caller passes.  An empty input or an empty triple list
returns `[]` before any SQL runs. -/
def search_products_with_details (db : DB) (detailed_results : List PVal)
    (category_name : Option String) (lim : Nat) : Except PyErr (List RankedRow) := do
  if detailed_results.isEmpty then .ok []
  else
    let triples ← searchTriplesOf db detailed_results
    if triples.isEmpty then .ok []
    else .ok (searchCore db triples category_name lim)

/-! ## Grouped final result (`utils/streamlit_utils.py`, `group_products`)

The input is the final pipeline payload: ranker rows grouped by category.
The output rows carry the projected fields; `image_file` is absent from
ranker rows, so `p.get("image_file")` is always `None`. -/

structure GroupedRow where
  product_id : Int
  name : String
  price : String
  relevance_score : Int
  image_url : String
  image_file : PVal
  category : String
  description : String
deriving Repr, DecidableEq

def mkGroupedRow (p : RankedRow) (cat : String) : GroupedRow :=
  { product_id := p.product_id, name := p.name, price := p.price,
    relevance_score := p.relevance_score, image_url := p.image_url,
    image_file := PVal.none, category := cat, description := p.description }

/-- Inner loop of `group_products` over one category's items: returns the
bucket, the updated `seen` set, the updated `total`, and whether the
`total >= cap` break fired.  A falsy (`0`) or already-seen product id is
skipped; the row is appended before the cap check, exactly as in the
source. -/
def bucketAux (cat : String) (cap : Nat) :
    List RankedRow → List Int → Nat → (List GroupedRow × List Int × Nat × Bool)
  | [], seen, total => ([], seen, total, false)
  | p :: ps, seen, total =>
    let pid := p.product_id
    if pid == 0 || seen.contains pid then bucketAux cat cap ps seen total
    else
      let seen2 := pid :: seen
      let row := mkGroupedRow p cat
      let total2 := total + 1
      if cap ≤ total2 then ([row], seen2, total2, true)
      else
        let r := bucketAux cat cap ps seen2 total2
        (row :: r.1, r.2)

/-- Outer loop of `group_products` over the categories. -/
def groupAux (cap : Nat) : List (String × List RankedRow) → List Int → Nat →
    List (String × List GroupedRow)
  | [], _, _ => []
  | (cat, items) :: rest, seen, total =>
    let r := bucketAux cat cap items seen total
    let out := if r.1.isEmpty then [] else [(cat, r.1)]
    if cap ≤ r.2.2.1 then out
    else out ++ groupAux cap rest r.2.1 r.2.2.1

/-- Embedding of `group_products` (utils/streamlit_utils.py, lines
34-63): ordered grouping by category with a global cap and dedupe by
product id. -/
def group_products (final_results : List (String × List RankedRow)) (cap : Nat) :
    List (String × List GroupedRow) :=
  groupAux cap final_results [] 0

/-- All grouped rows of a `group_products` result, in order. -/
def groupedRows (g : List (String × List GroupedRow)) : List GroupedRow :=
  g.flatMap (fun e => e.2)

/-! ## Prompt executor (`utils/execute_prompt.py`)

External collaborators (`load_prompt` file IO, the DB-backed placeholder
resolution plus `str.format` of `prepare_prompt`, `call_model`, and the
stdlib parsers `json.loads` / `ast.literal_eval`) are oracle parameters;
everything else of `parse_api_response` / `execute_prompt` is embedded
directly.  An oracle `.error` models the collaborator raising; `.ok`
models it returning. -/

/-- Non-overlapping left-to-right substring replacement
(`str.replace`), with the input length as structural fuel. -/
def replaceSubAux (pat repl : List Char) : List Char → Nat → List Char
  | l, 0 => l
  | [], _ => []
  | c :: cs, fuel + 1 =>
    if !pat.isEmpty && listPrefixTest pat (c :: cs) then
      repl ++ replaceSubAux pat repl ((c :: cs).drop pat.length) fuel
    else c :: replaceSubAux pat repl cs fuel

def pyReplace (s pat repl : String) : String :=
  String.mk (replaceSubAux pat.data repl.data s.data s.data.length)

/-- Substring containment (`needle in haystack`). -/
def hasSubChars (needle : List Char) : List Char → Bool
  | [] => needle.isEmpty
  | c :: cs => listPrefixTest needle (c :: cs) || hasSubChars needle cs

/-- Character class of `re.sub(r'[\x00-\x1f\x7f-\x9f]', '', ...)`. -/
def isCtl (c : Char) : Bool :=
  c.toNat ≤ 31 || (127 ≤ c.toNat && c.toNat ≤ 159)

/-- Curly-quote normalization (`content.replace('“', '"').replace('”', '"')`). -/
def mapQuote (c : Char) : Char :=
  if c == '“' || c == '”' then '"' else c

def lbrace : Char := Char.ofNat 123

def rbrace : Char := Char.ofNat 125

/-- Embedding of `extract_json` (utils/execute_prompt.py, lines 74-80):
`re.search(r'(\x7b.*\x7d)', content, re.DOTALL)` takes the slice from the
first opening brace to the last closing brace, provided the latter comes
after the former; otherwise the function raises. -/
def extract_json (l : List Char) : Except Unit (List Char) :=
  match l.findIdx? (fun c => c == lbrace), l.reverse.findIdx? (fun c => c == rbrace) with
  | some i, some rj =>
    let j := l.length - 1 - rj
    if i < j then .ok ((l.drop i).take (j - i + 1)) else .error ()
  | _, _ => .error ()

/-- ASCII `\w` class of the repair regex. -/
def isWordChar (c : Char) : Bool :=
  ('A' ≤ c && c ≤ 'Z') || ('a' ≤ c && c ≤ 'z') || ('0' ≤ c && c ≤ '9') || c == '_'

/-- Embedding of `re.sub(r"(\w+):", r'"\1":', ...)`: each maximal word
run immediately followed by `:` gets wrapped in double quotes.  `run`
accumulates the current word run in reverse. -/
def quoteBareKeysAux : List Char → List Char → List Char
  | [], run => run.reverse
  | c :: cs, run =>
    if isWordChar c then quoteBareKeysAux cs (c :: run)
    else if c == ':' && !run.isEmpty then
      ('"' :: run.reverse) ++ ('"' :: ':' :: quoteBareKeysAux cs [])
    else run.reverse ++ (c :: quoteBareKeysAux cs [])

def quoteBareKeys (l : List Char) : List Char := quoteBareKeysAux l []

/-- Embedding of `re.sub(r"\\(.)", r"\1", ...)`: drop each backslash that
precedes a character, left to right. -/
def unescapeBackslashes : List Char → List Char
  | '\\' :: c :: rest => c :: unescapeBackslashes rest
  | c :: rest => c :: unescapeBackslashes rest
  | [] => []

/-- Shape of the model-call response object as `parse_api_response`
probes it: `response.choices[0].message.content` either yields a string,
or fails with IndexError (`choicesEmpty`), or fails with the
AttributeError on `message` (`messageMissing`). -/
inductive ApiResp where
  | choicesEmpty
  | messageMissing
  | content (s : String)
deriving Repr, DecidableEq

/-- Embedding of `parse_api_response` (utils/execute_prompt.py, lines
27-71).  `.error` models the one path that re-raises out of the function
(the missing-`message` AttributeError, converted to a ValueError);
`.ok Option.none` models the `return None` failure paths (IndexError on
`choices` falls to the catch-all handler; an unparsable body falls to the
`(SyntaxError, ValueError)` handler, including the double
`extract_json` failure inside the inner `except`); `.ok (some v)` is a
parsed result, or the raw text for a CSV-shaped response. -/
def parse_api_response (jsonLoads litEval : String → Except Unit PVal) (resp : ApiResp) :
    Except PyErr (Option PVal) :=
  match resp with
  | .choicesEmpty => .ok Option.none
  | .messageMissing =>
    .error (.attributeError "The API response does not contain the expected message attribute.")
  | .content content =>
    let firstLine := content.data.takeWhile (fun c => c != '\n')
    if firstLine.contains ';' || firstLine.contains ',' ||
        hasSubChars ['c', 's', 'v'] firstLine then
      .ok (some (.str content))
    else
      let c1 := pyReplace (pyReplace content "```json\n" "") "\n```" ""
      let c2 := pyStripStr c1
      let c3 := pyReplace c2 "\n" ""
      let c4 := String.mk (c3.data.filter (fun c => !isCtl c))
      let c5 := String.mk (c4.data.map mapQuote)
      match extract_json c5.data with
      | .ok jl =>
        match jsonLoads (String.mk jl) with
        | .ok v => .ok (some v)
        | .error _ =>
          match litEval (String.mk (unescapeBackslashes (quoteBareKeys jl))) with
          | .ok v => .ok (some v)
          | .error _ => .ok Option.none
      | .error _ => .ok Option.none

/-- External collaborators of `execute_prompt`. -/
structure ExecOracle where
  loadPrompt : String → Except Unit String
  prepare : List (String × String) → String → Except Unit String
  callModel : Except Unit (Option ApiResp)
  jsonLoads : String → Except Unit PVal
  litEval : String → Except Unit PVal

/-- Template resolution at the top of `execute_prompt`: both arguments
`None` raises a ValueError (caught by the surrounding handler), an
explicit template is used as is, otherwise `load_prompt` reads the file
(and may raise). -/
def effTemplate (o : ExecOracle) (prompt_template prompt_template_path : Option String) :
    Except Unit String :=
  match prompt_template, prompt_template_path with
  | Option.none, Option.none => .error ()
  | some t, _ => .ok t
  | Option.none, some p => o.loadPrompt p

/-- Embedding of `execute_prompt` (utils/execute_prompt.py, lines
105-136).  The whole body sits in a catch-all `try/except` that returns
`None`, so the embedding is a total function into `Option PVal`: no
failure of any collaborator or of the parser escapes to the caller.
The `row_index` parameter of the source only feeds log output and is
omitted. -/
def execute_prompt (o : ExecOracle) (row : List (String × String))
    (prompt_template prompt_template_path : Option String) : Option PVal :=
  match effTemplate o prompt_template prompt_template_path with
  | .error _ => Option.none
  | .ok tpl =>
    match o.prepare row tpl with
    | .error _ => Option.none
    | .ok _prompt =>
      match o.callModel with
      | .error _ => Option.none
      | .ok Option.none => Option.none
      | .ok (some resp) =>
        match parse_api_response o.jsonLoads o.litEval resp with
        | .error _ => Option.none
        | .ok v => v

/-! ## Query pipeline (`run_user_query.py`, `process_user_query_streaming`)

The generator is embedded as a function from the external collaborators
(`PipeOracle`: the prompt executor, which by `execute_prompt` never
raises and returns a dynamic value, and the completion order of the
stage-3 thread pool) and the relational store to the list of yielded
events paired with the uncaught exception, if any, that terminates the
stream. -/

def hexDigit (n : Nat) : Char :=
  if n < 10 then Char.ofNat (48 + n) else Char.ofNat (87 + n)

/-- JSON string escaping of `json.dumps` with `ensure_ascii=False`. -/
def jsonEscapeChar (c : Char) : List Char :=
  if c == '\\' then ['\\', '\\']
  else if c == '"' then ['\\', '"']
  else if c == '\n' then ['\\', 'n']
  else if c == '\r' then ['\\', 'r']
  else if c == '\t' then ['\\', 't']
  else if c == Char.ofNat 8 then ['\\', 'b']
  else if c == Char.ofNat 12 then ['\\', 'f']
  else if c.toNat < 32 then
    ['\\', 'u', '0', '0', hexDigit (c.toNat / 16), hexDigit (c.toNat % 16)]
  else [c]

def jsonQuote (s : String) : String :=
  "\"" ++ String.mk (s.data.flatMap jsonEscapeChar) ++ "\""

def intToString (n : Int) : String :=
  (if n < 0 then "-" else "") ++ String.mk (natDigits n.natAbs)

mutual

/-- Embedding of `json.dumps(v, ensure_ascii=False)` with the default
separators. -/
def pyDumps : PVal → String
  | .none => "null"
  | .bool true => "true"
  | .bool false => "false"
  | .int n => intToString n
  | .str s => jsonQuote s
  | .list items => "[" ++ pyDumpsItems items ++ "]"
  | .dict es => String.singleton lbrace ++ pyDumpsEntries es ++ String.singleton rbrace

def pyDumpsItems : List PVal → String
  | [] => ""
  | [x] => pyDumps x
  | x :: y :: xs => pyDumps x ++ ", " ++ pyDumpsItems (y :: xs)

def pyDumpsEntries : List (String × PVal) → String
  | [] => ""
  | [(k, v)] => jsonQuote k ++ ": " ++ pyDumps v
  | (k, v) :: e :: es => jsonQuote k ++ ": " ++ pyDumps v ++ ", " ++ pyDumpsEntries (e :: es)

end

mutual

/-- Embedding of Python `repr` on the modeled value domain, for strings
without quote or escape characters (the case arising here). -/
def pyRepr : PVal → String
  | .none => "None"
  | .bool true => "True"
  | .bool false => "False"
  | .int n => intToString n
  | .str s => String.singleton (Char.ofNat 39) ++ s ++ String.singleton (Char.ofNat 39)
  | .list items => "[" ++ pyReprItems items ++ "]"
  | .dict es => String.singleton lbrace ++ pyReprEntries es ++ String.singleton rbrace

def pyReprItems : List PVal → String
  | [] => ""
  | [x] => pyRepr x
  | x :: y :: xs => pyRepr x ++ ", " ++ pyReprItems (y :: xs)

def pyReprEntries : List (String × PVal) → String
  | [] => ""
  | [(k, v)] => pyRepr (.str k) ++ ": " ++ pyRepr v
  | (k, v) :: e :: es => pyRepr (.str k) ++ ": " ++ pyRepr v ++ ", " ++ pyReprEntries (e :: es)

end

/-- Embedding of Python `str()` as used inside f-strings. -/
def pyStrVal : PVal → String
  | .str s => s
  | v => pyRepr v

/-- Events yielded by `process_user_query_streaming`, tagged by their
`status` field (with `intermediate_result` split by its `type`). -/
inductive Event where
  | progress (msg : String)
  | contextResult (data : PVal)
  | intermediateAttributes (data : List PVal)
  | intermediateCategories (data : List PVal)
  | errorEv (msg : String)
  | finalMessage (msg : String)
  | finalResult (data : List (PVal × List RankedRow))
deriving Repr, DecidableEq

/-- Terminal events of the stream: `error`, `final_message`,
`final_result`. -/
def Event.isTerminal : Event → Bool
  | .errorEv _ => true
  | .finalMessage _ => true
  | .finalResult _ => true
  | _ => false

/-- The `PROMPT_MAPPING` constant of run_user_query.py. -/
def PROMPT_MAPPING : List (String × String) :=
  [("Mensagem", "./prompts/prompt_1_att_mensagem.txt"),
   ("Linha", "./prompts/prompt_2_att_linha.txt"),
   ("Material", "./prompts/prompt_3_att_material.txt"),
   ("Estrutura", "./prompts/prompt_4_att_estrutura.txt"),
   ("Textura", "./prompts/prompt_5_att_textura.txt"),
   ("Superfície", "./prompts/prompt_6_att_superficie.txt"),
   ("Cor", "./prompts/prompt_7_att_cor.txt"),
   ("ContextAnalyzer", "./prompts/prompt_context_analyzer.txt")]

/-- The `OCCASION_EXCLUSIONS` constant of run_user_query.py. -/
def OCCASION_EXCLUSIONS :
    List ((String × String × String × String) × List (String × List String)) :=
  [(("FORMAL", "DIA", "CAMPO", "FESTA"),
      [("Material", ["Couro", "Jeans", "Malha | Retilínea"]), ("Superfície", ["Brilhante"])]),
   (("FORMAL", "NOITE", "CAMPO", "FESTA"),
      [("Material", ["Couro", "Jeans", "Malha | Retilínea"])]),
   (("INFORMAL", "DIA", "CIDADE", "ESPORTE"),
      [("Material", ["Couro", "Jeans", "Tecido festivo", "Tecido plano"])]),
   (("INFORMAL", "DIA", "CIDADE", "LAZER"),
      [("Material", ["Couro", "Jeans", "Tecido festivo"])]),
   (("INFORMAL", "DIA", "CIDADE", "ATIVIDADES DIA A DIA"),
      [("Material", ["Tecido festivo", "Tecido plano"])]),
   (("INFORMAL", "NOITE", "CIDADE", "ESPORTE"),
      [("Material", ["Couro", "Jeans", "Tecido festivo", "Tecido plano"]),
       ("Estrutura", ["Pesado | Estruturado"])]),
   (("INFORMAL", "DIA", "PRAIA", "ESPORTE"),
      [("Material", ["Couro", "Tecido festivo", "Tecido plano"]),
       ("Estrutura", ["Pesado | Estruturado"])]),
   (("INFORMAL", "DIA", "PRAIA", "LAZER"),
      [("Material", ["Couro", "Tecido festivo", "Tecido plano"])]),
   (("INFORMAL", "DIA", "PRAIA", "FESTA"),
      [("Material", ["Couro", "Tecido festivo", "Tecido plano"])]),
   (("INFORMAL", "DIA", "PRAIA", "ATIVIDADES DIA A DIA"),
      [("Material", ["Couro", "Jeans", "Tecido festivo"])]),
   (("INFORMAL", "NOITE", "PRAIA", "LAZER"),
      [("Material", ["Couro", "Tecido festivo"]), ("Estrutura", ["Pesado | Estruturado"])]),
   (("INFORMAL", "NOITE", "PRAIA", "FESTA"),
      [("Material", ["Couro", "Tecido festivo"])]),
   (("INFORMAL", "DIA", "CAMPO", "ESPORTE"),
      [("Material", ["Tecido festivo"])]),
   (("INFORMAL", "DIA", "CAMPO", "LAZER"),
      [("Material", ["Tecido festivo"])]),
   (("INFORMAL", "DIA", "CAMPO", "FESTA"),
      [("Material", ["Tecido festivo"])]),
   (("INFORMAL", "DIA", "CAMPO", "ATIVIDADES DIA A DIA"),
      [("Material", ["Tecido festivo", "Tecido plano"])]),
   (("INFORMAL", "NOITE", "CAMPO", "LAZER"),
      [("Material", ["Tecido festivo"]), ("Estrutura", ["Pesado | Estruturado"])])]

/-- The `WEATHER_EXCLUSIONS` constant of run_user_query.py. -/
def WEATHER_EXCLUSIONS : List (String × List (String × List String)) :=
  [("Hot", [("Estrutura", ["Pesado | Estruturado"])]),
   ("Cold", [("Estrutura", ["Leve | Fluido"])])]

def ctxPromptPath : String := "./prompts/prompt_context_analyzer.txt"

def attSelPromptPath : String := "./prompts/prompt_0_attribute_selection.txt"

def lookComposerPath : String := "./prompts/prompt_look_composer.txt"

/-- External collaborators of the pipeline: `exec path row` is the value
`execute_prompt(row, prompt_template_path=path)` returns (never raising,
by `execute_prompt`); `arrive` is the order in which the stage-3
`as_completed` loop collects the futures' results — any permutation of
the submission order. -/
structure PipeOracle where
  exec : String → List (String × String) → PVal
  arrive : List PVal → List PVal

/-- Embedding of `analyze_single_attribute` (run_user_query.py, lines
67-72).  A non-string attribute is either absent from the string-keyed
`PROMPT_MAPPING` (the source returns `None`) or unhashable (the
membership test raises and the `as_completed` loop swallows the
exception, contributing nothing); both cases are modeled as `None`,
which the truthiness filter below drops either way. -/
def analyzeSingle (o : PipeOracle) (attr : PVal) (row : List (String × String)) : PVal :=
  match attr with
  | .str s =>
    match lookupEntry PROMPT_MAPPING s with
    | some p => o.exec p row
    | Option.none => .none
  | _ => .none

/-- Stage-2 projection: `[attribute_results.get(f"att_{i}") for i in
range(1, 6) if attribute_results.get(f"att_{i}")]`. -/
def topAttrs (aes : List (String × PVal)) : List PVal :=
  (([1, 2, 3, 4, 5] : List Nat).map
    (fun i => dget aes ("att_" ++ String.mk (natDigits i)))).filter PVal.truthy

/-- Occasion-rule lookup `OCCASION_EXCLUSIONS.get(occasion_key, {})`,
with the modeled-value against string-tuple key equality. -/
def occLookup (k : PVal × PVal × PVal × PVal) : List (String × List String) :=
  ((OCCASION_EXCLUSIONS.find? (fun e =>
    k.1.eqStr e.1.1 && k.2.1.eqStr e.1.2.1 && k.2.2.1.eqStr e.1.2.2.1 &&
      k.2.2.2.eqStr e.1.2.2.2)).map (fun e => e.2)).getD []

/-- Weather-rule lookup `WEATHER_EXCLUSIONS.get(climate, {})`. -/
def weatherLookup (climate : PVal) : List (String × List String) :=
  ((WEATHER_EXCLUSIONS.find? (fun e => climate.eqStr e.1)).map (fun e => e.2)).getD []

def valueKey (i : Nat) (suffix : String) : String :=
  "value_" ++ String.mk (natDigits i) ++ "_" ++ suffix

/-- One slot of the stage-4 value rebuild (run_user_query.py, lines
234-243): a falsy name is skipped; a truthy unhashable name raises in the
set-membership test; an excluded name is dropped; otherwise the slot
contributes its `(id, name, score, justification)` tuple. -/
def valueSlot (bs : List (String × PVal)) (excls : List String) (i : Nat) :
    Except PyErr (List (PVal × PVal × PVal × PVal)) :=
  let nm := dget bs (valueKey i "name")
  if !nm.truthy then .ok []
  else if !nm.hashable then .error (.typeError "unhashable value name")
  else if excls.any (fun s => nm.eqStr s) then .ok []
  else .ok [(dget bs (valueKey i "id"), nm, dget bs (valueKey i "score"),
    dget bs (valueKey i "justification"))]

def newValues (bs : List (String × PVal)) (excls : List String) :
    Except PyErr (List (PVal × PVal × PVal × PVal)) := do
  let a ← valueSlot bs excls 1
  let b ← valueSlot bs excls 2
  let c ← valueSlot bs excls 3
  .ok (a ++ b ++ c)

/-- Renumbering loop `for i, val in enumerate(new_values, 1)` of the
stage-4 block rebuild. -/
def renumber : List (PVal × PVal × PVal × PVal) → Nat → List (String × PVal)
  | [], _ => []
  | (idv, nm, sc, ju) :: rest, j =>
    (valueKey j "id", idv) :: (valueKey j "name", nm) :: (valueKey j "score", sc) ::
      (valueKey j "justification", ju) :: renumber rest (j + 1)

/-- Per-block stage-4 filtering loop (run_user_query.py, lines 221-252).
A block with no applicable exclusions passes through unchanged; otherwise
its value list is rebuilt without the excluded names and the block is
dropped when nothing survives. -/
def filterBlocks (orules wrules : List (String × List String)) :
    List PVal → Except PyErr (List PVal)
  | [] => .ok []
  | block :: rest =>
    match block with
    | .dict bs =>
      (match lookupEntry bs "attribute" with
      | some (.str rawAttr) =>
        let attr_name := normalize_attribute_name rawAttr
        let excls := ((lookupEntry orules attr_name).getD []) ++
          ((lookupEntry wrules attr_name).getD [])
        if excls.isEmpty then (filterBlocks orules wrules rest).map (fun l => block :: l)
        else do
          let nvs ← newValues bs excls
          let tail ← filterBlocks orules wrules rest
          if nvs.isEmpty then .ok tail
          else .ok (.dict (("attribute", PVal.str rawAttr) :: renumber nvs 1) :: tail)
      | some _ => .error (.attributeError "split on non-string attribute")
      | Option.none => .error (.keyError "attribute"))
    | _ => .error (.typeError "block not subscriptable")

/-- `context_results.get(k, {})`. -/
def getSub (ces : List (String × PVal)) (k : String) : PVal :=
  (lookupEntry ces k).getD (.dict [])

/-- Stage-4 exclusion filtering (run_user_query.py, lines 208-252):
occasion tuple and climate extraction (raising on a non-dict context
shape or on unhashable lookup keys, as the Python attribute access and
dict hashing would) followed by the per-block rebuild. -/
def stage4Filter (context_results : PVal) (detailed : List PVal) :
    Except PyErr (List PVal) := do
  let ces ← (match context_results with
    | .dict ces => Except.ok ces
    | _ => Except.error (PyErr.attributeError "context get on non-dict"))
  let os ← (match getSub ces "occasion" with
    | .dict os => Except.ok os
    | _ => Except.error (PyErr.attributeError "occasion get on non-dict"))
  let ws ← (match getSub ces "weather" with
    | .dict ws => Except.ok ws
    | _ => Except.error (PyErr.attributeError "weather get on non-dict"))
  let okey := (dget os "formality", dget os "time", dget os "location", dget os "activity")
  let climate := dget ws "climate"
  if !(okey.1.hashable && okey.2.1.hashable && okey.2.2.1.hashable && okey.2.2.2.hashable) then
    .error (.typeError "unhashable occasion key")
  else
    let occasion_rules := occLookup okey
    if !climate.hashable then .error (.typeError "unhashable climate")
    else filterBlocks occasion_rules (weatherLookup climate) detailed

def PVal.isInstInt : PVal → Bool
  | .int _ => true
  | .bool _ => true
  | _ => false

def PVal.intOf : PVal → Int
  | .int n => n
  | .bool b => if b then 1 else 0
  | _ => 0

/-- Stage-5 projection of attribute/value labels (run_user_query.py,
lines 256-265): always take `value_1_name` when truthy, take
`value_2_name` when its score is an int at or above the per-value
threshold 7; a falsy `attribute` skips the block. -/
def fashionOf : List PVal → Except PyErr (List String)
  | [] => .ok []
  | res :: rest =>
    match res with
    | .dict rs =>
      let attr := dget rs "attribute"
      let v1 := dget rs (valueKey 1 "name")
      let v2 := dget rs (valueKey 2 "name")
      let s2 := dget rs (valueKey 2 "score")
      let part :=
        if !attr.truthy then []
        else
          (if v1.truthy then [pyStrVal attr ++ ": " ++ pyStrVal v1] else []) ++
          (if v2.truthy && s2.isInstInt && decide (7 ≤ s2.intOf) then
            [pyStrVal attr ++ ": " ++ pyStrVal v2] else [])
      (fashionOf rest).map (fun t => part ++ t)
    | _ => .error (.attributeError "res get on non-dict")

def catKey (i : Nat) : String := "cat_" ++ String.mk (natDigits i)

/-- Stage-5 category acceptance (run_user_query.py, lines 271-277): keep
`cat_i` when truthy with an int score strictly above the threshold. -/
def collectCats (ces : List (String × PVal)) (thr : Int) : List PVal :=
  ([1, 2, 3, 4, 5] : List Nat).filterMap (fun i =>
    let nm := dget ces (catKey i)
    let sc := dget ces (catKey i ++ "_score")
    if nm.truthy && sc.isInstInt && decide (thr < sc.intOf) then some nm else Option.none)

/-- Stage-6 call of the ranker for one category (run_user_query.py, lines
292-295).  The empty-input and empty-triples short circuits return before
any SQL parameter is bound, so a non-string category only raises (the
sqlite3 binding error) when the aggregate query actually runs. -/
def stage6Search (db : DB) (blocks : List PVal) (cat : PVal) :
    Except PyErr (List RankedRow) := do
  if blocks.isEmpty then .ok []
  else
    let triples ← searchTriplesOf db blocks
    if triples.isEmpty then .ok []
    else
      match cat with
      | .str s => .ok (searchCore db triples (some s) 3)
      | _ => .error .bindError

/-- Python dict assignment on an association list: overwrite in place or
append. -/
def assocSetP {α : Type} : List (PVal × α) → PVal → α → List (PVal × α)
  | [], k, v => [(k, v)]
  | (k0, v0) :: rest, k, v =>
    if k0 = k then (k0, v) :: rest else (k0, v0) :: assocSetP rest k v

/-- Stage-6 loop: one ranker call per accepted category, assembling
`product_recommendations` (a dict keyed by the category value, whose
assignment raises on an unhashable key). -/
def stage6 (db : DB) (blocks : List PVal) :
    List PVal → List (PVal × List RankedRow) → Except PyErr (List (PVal × List RankedRow))
  | [], acc => .ok acc
  | c :: cs, acc => do
    let rows ← stage6Search db blocks c
    if !c.hashable then .error (.typeError "unhashable category key")
    else stage6 db blocks cs (assocSetP acc c rows)

/-- The empty context substituted when the stage-1 call fails. -/
def emptyContext : PVal := .dict [("occasion", .dict []), ("weather", .dict [])]

def ctxRow (q : String) : List (String × String) := [("user_query", q)]

def rowWithContext (q : String) (ctx : PVal) : List (String × String) :=
  [("user_query", q), ("query_context", pyDumps ctx)]

def catPromptRow (q : String) (fa : List String) : List (String × String) :=
  [("user_query", q), ("fashion_attributes", pyDumps (.list (fa.map PVal.str)))]

/-- Context result after the stage-1 fallback (run_user_query.py, lines
159-163). -/
def contextOf (o : PipeOracle) (q : String) : PVal :=
  let c := o.exec ctxPromptPath (ctxRow q)
  if c.truthy then c else emptyContext

def stepMsg1 : String := "➡️ Step 1/6: Analyzing occasion and weather..."
def stepMsg2 : String := "➡️ Step 2/6: Selecting the most relevant style attributes..."
def stepMsg3 : String := "➡️ Step 3/6: Analyzing each attribute in detail..."
def stepMsg4 : String := "➡️ Step 4/6: Applying occasion and weather exclusion rules..."
def stepMsg5 : String := "➡️ Step 5/6: Identifying relevant product categories..."
def stepMsg6 : String := "➡️ Step 6/6: Searching for top products..."

/-- Embedding of `process_user_query_streaming` (run_user_query.py, lines
149-298): the yielded events in order, paired with the uncaught exception
(if any) that crosses the stream boundary when the consumer resumes the
generator. -/
def runStream (o : PipeOracle) (db : DB) (user_query : String)
    (category_score_threshold : Int) : List Event × Option PyErr :=
  let context_results := contextOf o user_query
  let row := rowWithContext user_query context_results
  let ev2 : List Event :=
    [.progress stepMsg1, .contextResult context_results, .progress stepMsg2]
  let attribute_results := o.exec attSelPromptPath row
  if !attribute_results.truthy then
    (ev2 ++ [.errorEv "Failed to get initial attribute selection."], Option.none)
  else
    match attribute_results with
    | .dict aes =>
      let tops := topAttrs aes
      let ev4 := ev2 ++ [.intermediateAttributes tops, .progress stepMsg3]
      let detailed := (o.arrive (tops.map (fun a => analyzeSingle o a row))).filter PVal.truthy
      if detailed.isEmpty then
        (ev4 ++ [.errorEv "Could not get detailed attribute values."], Option.none)
      else
        let ev5 := ev4 ++ [.progress stepMsg4]
        match stage4Filter context_results detailed with
        | .error e => (ev5, some e)
        | .ok filtered =>
          let ev6 := ev5 ++ [.progress stepMsg5]
          match fashionOf filtered with
          | .error e => (ev6, some e)
          | .ok fashion =>
            let category_results := o.exec lookComposerPath (catPromptRow user_query fashion)
            match (if category_results.truthy then
                match category_results with
                | .dict ces => Except.ok (collectCats ces category_score_threshold)
                | _ => Except.error (PyErr.attributeError "category get on non-dict")
              else Except.ok []) with
            | .error e => (ev6, some e)
            | .ok relevant =>
              let ev7 := ev6 ++ [.intermediateCategories relevant]
              if relevant.isEmpty then
                (ev7 ++
                  [.finalMessage "No relevant product categories found for this query."],
                  Option.none)
              else
                let ev8 := ev7 ++ [.progress stepMsg6]
                match stage6 db filtered relevant [] with
                | .error e => (ev8, some e)
                | .ok recs => (ev8 ++ [.finalResult recs], Option.none)
    | _ => (ev2, some (.attributeError "attribute_results get on non-dict"))

example : canonicalize_query "a ! b" = "a  b" := by decide
example : canonicalize_query "a  b" = "a b" := by decide
example : canonicalize_query "Um Casamento, à Tarde!" = "um casamento a tarde" := by decide
example : validate_filename "../x.json" = false := by decide
example : validate_filename "a.json" = true := by decide
example : to_int_safe (.str " 10.5 ") 0 = 10 := by decide
example : to_int_safe (.str "abc") 0 = 0 := by decide
example : to_int_safe (.str "-7") 0 = -7 := by decide

/-! ## Sanity checks of the pipeline embedding on a concrete run -/

def happyOccEntries : List (String × PVal) :=
  [("formality", .str "FORMAL"), ("time", .str "DIA"), ("location", .str "CAMPO"),
   ("activity", .str "FESTA")]

def happyWeatherEntries : List (String × PVal) := [("climate", .str "Hot")]

def happyCtxEntries : List (String × PVal) :=
  [("occasion", .dict happyOccEntries), ("weather", .dict happyWeatherEntries),
   ("attribute", .str "Ctx")]

def happyBlockEntries : List (String × PVal) :=
  [("attribute", .str "Material"), ("value_1_id", .int 10), ("value_1_name", .str "Seda"),
   ("value_1_score", .int 9), ("value_1_justification", .str "x")]

def happyCatEntries : List (String × PVal) :=
  [("cat_1", .str "Vestidos"), ("cat_1_score", .int 9)]

/-- A well-behaved executor for concrete runs: context, one selected
attribute, one detail block, one accepted category. -/
def happyOracle : PipeOracle where
  exec := fun p _ =>
    if p = ctxPromptPath then .dict happyCtxEntries
    else if p = attSelPromptPath then .dict [("att_1", .str "Material")]
    else if p = "./prompts/prompt_3_att_material.txt" then .dict happyBlockEntries
    else if p = lookComposerPath then .dict happyCatEntries
    else .none
  arrive := id

def happyDB : DB where
  attributes := [(1, "material")]
  products_taxonomy := [⟨100, 1, 10, 5⟩]
  products := [⟨100, "Vestido A", 12345, "u", "Vestidos", "d"⟩]

example :
    (runStream happyOracle happyDB "q" 6).2 = Option.none ∧
    (runStream happyOracle happyDB "q" 6).1.getLast? =
      some (.finalResult [(.str "Vestidos",
        [{ product_id := 100, name := "Vestido A", price := "R$ 123,45", image_url := "u",
           category := "Vestidos", description := "d", relevance_score := 45 }])]) := by
  constructor <;> rfl

/-! ## Supporting lemmas -/

theorem insertDesc_mem (x a : ProductRec × Int) :
    ∀ l, a ∈ insertDesc x l ↔ a = x ∨ a ∈ l := by
  intro l
  induction l with
  | nil => simp [insertDesc]
  | cons y ys ih =>
    by_cases h : x.2 < y.2
    · simp [insertDesc, h, ih]
      tauto
    · simp [insertDesc, h, ih]

theorem insertDesc_pairwise (x : ProductRec × Int) :
    ∀ l, l.Pairwise (fun a b => b.2 ≤ a.2) →
      (insertDesc x l).Pairwise (fun a b => b.2 ≤ a.2) := by
  intro l
  induction l with
  | nil => intro _; simp [insertDesc]
  | cons y ys ih =>
    intro h
    rw [List.pairwise_cons] at h
    by_cases hlt : x.2 < y.2
    · simp only [insertDesc, hlt, if_pos]
      rw [List.pairwise_cons]
      refine ⟨?_, ih h.2⟩
      intro z hz
      rcases (insertDesc_mem x z ys).mp hz with rfl | hz
      · exact le_of_lt hlt
      · exact h.1 z hz
    · simp only [insertDesc, hlt, if_neg, not_false_iff]
      rw [List.pairwise_cons]
      refine ⟨?_, List.pairwise_cons.mpr h⟩
      intro z hz
      rcases List.mem_cons.mp hz with rfl | hz
      · exact le_of_not_lt hlt
      · exact le_trans (h.1 z hz) (le_of_not_lt hlt)

theorem sortDesc_pairwise : ∀ l, (sortDesc l).Pairwise (fun a b => b.2 ≤ a.2) := by
  intro l
  induction l with
  | nil => simp [sortDesc]
  | cons x xs ih => exact insertDesc_pairwise x _ ih

theorem sortDesc_mem (a : ProductRec × Int) : ∀ l, a ∈ sortDesc l ↔ a ∈ l := by
  intro l
  induction l with
  | nil => simp [sortDesc]
  | cons x xs ih => simp [sortDesc, insertDesc_mem, ih]

theorem searchCore_sorted (db : DB) (t : List (Int × Int × Int)) (cat : Option String)
    (lim : Nat) :
    (searchCore db t cat lim).Pairwise
      (fun a b => b.relevance_score ≤ a.relevance_score) := by
  unfold searchCore
  rw [List.pairwise_map]
  exact List.Pairwise.sublist (List.take_sublist _ _) (sortDesc_pairwise _)

theorem searchCore_length (db : DB) (t : List (Int × Int × Int)) (cat : Option String)
    (lim : Nat) : (searchCore db t cat lim).length ≤ lim := by
  unfold searchCore
  simp [List.length_take]

theorem searchCore_category (db : DB) (t : List (Int × Int × Int)) (c : String) (lim : Nat) :
    ∀ r ∈ searchCore db t (some c) lim, r.category = c := by
  intro r hr
  unfold searchCore at hr
  rcases List.mem_map.mp hr with ⟨x, hx, rfl⟩
  have hx2 : x ∈ sortDesc _ := (List.take_sublist _ _).subset hx
  have hx3 := (sortDesc_mem x _).mp hx2
  have hx4 := List.mem_filter.mp hx3
  simpa using hx4.2

theorem stripChars_subset (l : List Char) : ∀ c ∈ stripChars l, c ∈ l := by
  intro c hc
  unfold stripChars at hc
  rw [List.mem_reverse] at hc
  have h1 := (List.dropWhile_sublist (l := (l.dropWhile pyIsSpace).reverse) pyIsSpace).subset hc
  rw [List.mem_reverse] at h1
  exact (List.dropWhile_sublist pyIsSpace).subset h1

theorem takeWhile_digit_nil (l : List Char) (h : l.all (fun c => !c.isDigit) = true) :
    l.takeWhile Char.isDigit = [] := by
  cases l with
  | nil => rfl
  | cons c cs =>
    have hc : c.isDigit = false := by
      have := (List.all_eq_true.mp h) c (by simp)
      simpa using this
    simp [List.takeWhile, hc]

theorem dropWhile_digit_self (l : List Char) (h : l.all (fun c => !c.isDigit) = true) :
    l.dropWhile Char.isDigit = l := by
  cases l with
  | nil => rfl
  | cons c cs =>
    have hc : c.isDigit = false := by
      have := (List.all_eq_true.mp h) c (by simp)
      simpa using this
    simp [List.dropWhile, hc]

theorem stripSign_snd_all (p : Char → Bool) (l : List Char) (h : l.all p = true) :
    ((stripSign l).2).all p = true := by
  unfold stripSign
  split
  · simp_all
  · simp_all
  · simpa using h

theorem decOk_nodigit (l : List Char) (h : l.all (fun c => !c.isDigit) = true) :
    decOk l = false := by
  unfold decOk
  have ht : l.takeWhile Char.isDigit = [] := takeWhile_digit_nil l h
  rw [dropWhile_digit_self l h]
  split
  · simp [ht]
  · next fr =>
    have hfr : fr.all (fun c => !c.isDigit) = true := by
      simp only [List.all_cons, Bool.and_eq_true] at h
      exact h.2
    rw [ht]
    cases fr with
    | nil => simp
    | cons d ds =>
      have hd : d.isDigit = false := by
        have := (List.all_eq_true.mp hfr) d (by simp)
        simpa using this
      simp [hd]
  · rfl

theorem parseDecTrunc_nodigit (l : List Char) (h : l.all (fun c => !c.isDigit) = true) :
    parseDecTrunc l = Option.none := by
  simp only [parseDecTrunc, decOk_nodigit _ (stripSign_snd_all _ l h), Bool.false_eq_true,
    if_false, if_neg, not_false_iff]

theorem to_int_safe_nodigit (s : String) (d : Int)
    (h : s.data.all (fun c => !c.isDigit) = true) : to_int_safe (.str s) d = d := by
  have hsub : (pyStripStr s).data.all (fun c => !c.isDigit) = true := by
    rw [List.all_eq_true]
    intro c hc
    exact (List.all_eq_true.mp h) c (stripChars_subset s.data c hc)
  by_cases he : (pyStripStr s).isEmpty
  · simp [to_int_safe, he]
  · simp [to_int_safe, he, parseDecTrunc_nodigit _ hsub]

theorem bucketAux_total_eq (cat : String) (cap : Nat) :
    ∀ (items : List RankedRow) (seen : List Int) (total : Nat),
      (bucketAux cat cap items seen total).2.2.1 =
        total + (bucketAux cat cap items seen total).1.length := by
  intro items
  induction items with
  | nil => intro seen total; simp [bucketAux]
  | cons p ps ih =>
    intro seen total
    by_cases hs : (p.product_id == 0 || seen.contains p.product_id) = true
    · simp only [bucketAux, hs, if_pos]
      exact ih seen total
    · simp only [bucketAux, hs, if_neg, not_false_iff, Bool.false_eq_true]
      by_cases hc : cap ≤ total + 1
      · simp [hc]
      · simp only [hc, if_neg, not_false_iff, List.length_cons]
        rw [ih (p.product_id :: seen) (total + 1)]
        omega

theorem bucketAux_cap (cat : String) (cap : Nat) :
    ∀ (items : List RankedRow) (seen : List Int) (total : Nat), total < cap →
      (bucketAux cat cap items seen total).2.2.1 ≤ cap ∧
      ((bucketAux cat cap items seen total).2.2.2 = false →
        (bucketAux cat cap items seen total).2.2.1 < cap) := by
  intro items
  induction items with
  | nil => intro seen total h; simp [bucketAux]; omega
  | cons p ps ih =>
    intro seen total h
    by_cases hs : (p.product_id == 0 || seen.contains p.product_id) = true
    · simp only [bucketAux, hs, if_pos]
      exact ih seen total h
    · simp only [bucketAux, hs, if_neg, not_false_iff, Bool.false_eq_true]
      by_cases hc : cap ≤ total + 1
      · simp only [hc, if_pos]
        constructor
        · simpa using Nat.succ_le_of_lt h
        · intro hfalse; simp at hfalse
      · simp only [hc, if_neg, not_false_iff]
        exact ih (p.product_id :: seen) (total + 1) (by omega)

/-- Total output rows of a grouped result. -/
def groupTotal (g : List (String × List GroupedRow)) : Nat := (groupedRows g).length

theorem groupAux_cap (cap : Nat) :
    ∀ (finals : List (String × List RankedRow)) (seen : List Int) (total : Nat),
      total < cap → total + groupTotal (groupAux cap finals seen total) ≤ cap := by
  intro finals
  induction finals with
  | nil => intro seen total h; simp [groupAux, groupTotal, groupedRows]; omega
  | cons e rest ih =>
    intro seen total h
    obtain ⟨cat, items⟩ := e
    have htot := bucketAux_total_eq cat cap items seen total
    have hcap := bucketAux_cap cat cap items seen total h
    simp only [groupAux]
    by_cases hb : cap ≤ (bucketAux cat cap items seen total).2.2.1
    · simp only [hb, if_pos]
      by_cases hempty : (bucketAux cat cap items seen total).1.isEmpty
      · simp [hempty, groupTotal, groupedRows]; omega
      · simp only [hempty, Bool.false_eq_true, if_neg, not_false_iff]
        simp [groupTotal, groupedRows]
        omega
    · simp only [hb, if_neg, not_false_iff]
      have hlt : (bucketAux cat cap items seen total).2.2.1 < cap := by omega
      have hrec := ih (bucketAux cat cap items seen total).2.1
        (bucketAux cat cap items seen total).2.2.1 hlt
      by_cases hempty : (bucketAux cat cap items seen total).1.isEmpty
      · have hlen : (bucketAux cat cap items seen total).1.length = 0 := by
          simpa [List.isEmpty_iff_length_eq_zero] using hempty
        simp only [hempty, if_pos]
        simp only [groupTotal, groupedRows, List.nil_append]
        simp only [groupTotal, groupedRows] at hrec
        omega
      · simp only [hempty, Bool.false_eq_true, if_neg, not_false_iff]
        simp only [groupTotal, groupedRows, List.cons_append, List.nil_append,
          List.flatMap_cons, List.length_append]
        simp only [groupTotal, groupedRows] at hrec
        omega

theorem bucketAux_seen (cat : String) (cap : Nat) :
    ∀ (items : List RankedRow) (seen : List Int) (total : Nat),
      (∀ g ∈ (bucketAux cat cap items seen total).1, g.product_id ∉ seen) ∧
      ((bucketAux cat cap items seen total).1.map (fun g => g.product_id)).Nodup ∧
      (∀ x, x ∈ (bucketAux cat cap items seen total).2.1 ↔
        x ∈ (bucketAux cat cap items seen total).1.map (fun g => g.product_id) ∨ x ∈ seen) := by
  intro items
  induction items with
  | nil => intro seen total; simp [bucketAux]
  | cons p ps ih =>
    intro seen total
    by_cases hs : (p.product_id == 0 || seen.contains p.product_id) = true
    · simp only [bucketAux, hs, if_pos]
      exact ih seen total
    · have hns : p.product_id ∉ seen := by
        intro hmem
        exact hs (by simp [hmem])
      simp only [bucketAux, hs, if_neg, not_false_iff, Bool.false_eq_true]
      by_cases hc : cap ≤ total + 1
      · simp only [hc, if_pos]
        refine ⟨?_, ?_, ?_⟩
        · intro g hg
          simp only [List.mem_singleton] at hg
          subst hg
          exact hns
        · simp [mkGroupedRow]
        · intro x
          simp [mkGroupedRow]
      · simp only [hc, if_neg, not_false_iff]
        obtain ⟨ih1, ih2, ih3⟩ := ih (p.product_id :: seen) (total + 1)
        refine ⟨?_, ?_, ?_⟩
        · intro g hg
          rcases List.mem_cons.mp hg with rfl | hg
          · exact hns
          · intro hmem
            exact ih1 g hg (List.mem_cons_of_mem _ hmem)
        · simp only [List.map_cons, List.nodup_cons]
          refine ⟨?_, ih2⟩
          intro hmem
          rcases List.mem_map.mp hmem with ⟨g, hg, hgid⟩
          exact ih1 g hg (by rw [hgid, mkGroupedRow]; exact List.mem_cons_self _ _)
        · intro x
          rw [ih3 x]
          simp only [List.map_cons, List.mem_cons, mkGroupedRow]
          tauto

theorem groupAux_nodup (cap : Nat) :
    ∀ (finals : List (String × List RankedRow)) (seen : List Int) (total : Nat),
      ((groupedRows (groupAux cap finals seen total)).map (fun g => g.product_id)).Nodup ∧
      (∀ g ∈ groupedRows (groupAux cap finals seen total), g.product_id ∉ seen) := by
  intro finals
  induction finals with
  | nil => intro seen total; simp [groupAux, groupedRows]
  | cons e rest ih =>
    intro seen total
    obtain ⟨cat, items⟩ := e
    obtain ⟨hb1, hb2, hb3⟩ := bucketAux_seen cat cap items seen total
    simp only [groupAux]
    by_cases hempty : (bucketAux cat cap items seen total).1.isEmpty
    · have hnil : (bucketAux cat cap items seen total).1 = [] :=
        List.isEmpty_iff.mp hempty
      by_cases hb : cap ≤ (bucketAux cat cap items seen total).2.2.1
      · simp [hb, hempty, groupedRows]
      · simp only [hb, if_neg, not_false_iff, hempty, if_pos, List.nil_append]
        obtain ⟨ihn, ihs⟩ := ih (bucketAux cat cap items seen total).2.1
          (bucketAux cat cap items seen total).2.2.1
        refine ⟨ihn, ?_⟩
        intro g hg hmem
        exact ihs g hg ((hb3 g.product_id).mpr (Or.inr hmem))
    · by_cases hb : cap ≤ (bucketAux cat cap items seen total).2.2.1
      · simp only [hb, if_pos, hempty, Bool.false_eq_true, if_neg, not_false_iff]
        constructor
        · simpa [groupedRows] using hb2
        · intro g hg
          simp only [groupedRows, List.flatMap_cons, List.flatMap_nil,
            List.append_nil] at hg
          exact hb1 g hg
      · simp only [hb, if_neg, not_false_iff, hempty, Bool.false_eq_true]
        obtain ⟨ihn, ihs⟩ := ih (bucketAux cat cap items seen total).2.1
          (bucketAux cat cap items seen total).2.2.1
        have hrow : groupedRows ([(cat, (bucketAux cat cap items seen total).1)] ++
            groupAux cap rest (bucketAux cat cap items seen total).2.1
              (bucketAux cat cap items seen total).2.2.1) =
            (bucketAux cat cap items seen total).1 ++
              groupedRows (groupAux cap rest (bucketAux cat cap items seen total).2.1
                (bucketAux cat cap items seen total).2.2.1) := by
          simp [groupedRows]
        constructor
        · rw [hrow, List.map_append, List.nodup_append]
          refine ⟨hb2, ihn, ?_⟩
          intro x hx hx2
          rcases List.mem_map.mp hx2 with ⟨g, hg, hgid⟩
          have : g.product_id ∉ (bucketAux cat cap items seen total).2.1 := ihs g hg
          rw [hgid] at this
          exact this ((hb3 x).mpr (Or.inl hx))
        · rw [hrow]
          intro g hg hmem
          rcases List.mem_append.mp hg with hg | hg
          · exact hb1 g hg hmem
          · exact ihs g hg ((hb3 g.product_id).mpr (Or.inr hmem))

/-! ## Manifest-validation lemmas (C4) -/

/-- Stripped query cell of a row. -/
def cellQuery (r : String × String) : String := pyStripStr r.1

/-- Stripped file cell of a row. -/
def cellFile (r : String × String) : String := pyStripStr r.2

/-- Canonical key of a row. -/
def keyOf (r : String × String) : String := canonicalize_query (cellQuery r)

/-- The declarative manifest defects of claim C4 at 0-based row index
`i`: empty query or file cell, invalid filename, canonical key already
seen in an earlier row, filename already seen in an earlier row. -/
def RowBad (rows : List (String × String)) (i : Nat) : Prop :=
  ∃ r, rows[i]? = some r ∧
    ((cellQuery r).isEmpty = true ∨ (cellFile r).isEmpty = true ∨
     validate_filename (cellFile r) = false ∨
     (∃ j, j < i ∧ ∃ r2, rows[j]? = some r2 ∧ keyOf r2 = keyOf r) ∨
     (∃ j, j < i ∧ ∃ r2, rows[j]? = some r2 ∧ cellFile r2 = cellFile r))

/-- Invariant of a seen-map after the first `n` rows: a key is absent
exactly when no earlier row produced it, and every stored key traces back
to an earlier row. -/
def KInv (rows : List (String × String)) (f : (String × String) → String)
    (sk : List (String × Nat)) (n : Nat) : Prop :=
  ∀ k : String,
    (lookupEntry sk k = Option.none ↔ ∀ j r, j < n → rows[j]? = some r → f r ≠ k) ∧
    (∀ v, lookupEntry sk k = some v → ∃ j r, j < n ∧ rows[j]? = some r ∧ f r = k)

theorem KInv_nil (rows : List (String × String)) (f : (String × String) → String) :
    KInv rows f [] 0 := by
  intro k
  refine ⟨⟨fun _ j r hj _ => by omega, fun _ => rfl⟩, fun v hv => by simp [lookupEntry] at hv⟩

theorem KInv_step (rows : List (String × String)) (f : (String × String) → String)
    (sk : List (String × Nat)) (n : Nat) (r : String × String)
    (h : KInv rows f sk n) (hr : rows[n]? = some r) :
    KInv rows f ((f r, n + 2) :: sk) (n + 1) := by
  intro k
  by_cases hk : f r = k
  · have hbeq : (f r == k) = true := by simp [hk]
    constructor
    · constructor
      · intro hnone
        simp [lookupEntry, List.find?, hbeq] at hnone
      · intro hall
        exact absurd hk (hall n r (by omega) hr)
    · intro v hv
      exact ⟨n, r, by omega, hr, hk⟩
  · have hbeq : (f r == k) = false := by simp [hk]
    have hskip : lookupEntry ((f r, n + 2) :: sk) k = lookupEntry sk k := by
      simp [lookupEntry, List.find?, hbeq]
    constructor
    · rw [hskip, (h k).1]
      constructor
      · intro hall j r2 hj hr2
        by_cases hjn : j = n
        · subst hjn
          rw [hr] at hr2
          cases hr2
          exact hk
        · exact hall j r2 (by omega) hr2
      · intro hall j r2 hj hr2
        exact hall j r2 (by omega) hr2
    · intro v hv
      rw [hskip] at hv
      obtain ⟨j, r2, hj, hr2, hf⟩ := (h k).2 v hv
      exact ⟨j, r2, by omega, hr2, hf⟩

theorem drop_head (rows : List (String × String)) (n : Nat) (r : String × String)
    (rest : List (String × String)) (h : rows.drop n = r :: rest) :
    rows[n]? = some r ∧ rows.drop (n + 1) = rest := by
  constructor
  · have := List.getElem?_drop rows n 0
    rw [h] at this
    simpa using this.symm
  · have : (rows.drop n).drop 1 = rest := by rw [h]; rfl
    rw [List.drop_drop] at this
    simpa [Nat.add_comm] using this

/-- The error branch of the scan always names a defective row. -/
theorem readRowsAux_error_bad (rows : List (String × String)) :
    ∀ (rest : List (String × String)) (n : Nat) (sk sf : List (String × Nat))
      (e : RowError),
      rows.drop n = rest →
      KInv rows keyOf sk n → KInv rows cellFile sf n →
      readRowsAux rest (n + 2) sk sf = .error e →
      ∃ i, e.line = i + 2 ∧ RowBad rows i := by
  intro rest
  induction rest with
  | nil =>
    intro n sk sf e _ _ _ habs
    simp [readRowsAux] at habs
  | cons r rest ih =>
    intro n sk sf e hdrop hks hfs hrun
    obtain ⟨hget, hdrop2⟩ := drop_head rows n r rest hdrop
    by_cases hemp : ((pyStripStr r.1).isEmpty || (pyStripStr r.2).isEmpty) = true
    · simp only [readRowsAux, hemp, if_pos] at hrun
      cases hrun
      refine ⟨n, rfl, r, hget, ?_⟩
      rcases Bool.or_eq_true_iff.mp hemp with h | h
      · exact Or.inl h
      · exact Or.inr (Or.inl h)
    · simp only [readRowsAux, hemp, Bool.false_eq_true, if_neg, not_false_iff] at hrun
      by_cases hval : validate_filename (pyStripStr r.2)
      · simp only [hval, Bool.not_true, Bool.false_eq_true, if_neg, not_false_iff] at hrun
        cases hlk : lookupEntry sk (canonicalize_query (pyStripStr r.1)) with
        | some j =>
          rw [hlk] at hrun
          cases hrun
          obtain ⟨j0, r2, hj0, hr2, hfk⟩ := (hks _).2 _ hlk
          exact ⟨n, rfl, r, hget, Or.inr (Or.inr (Or.inr (Or.inl
            ⟨j0, hj0, r2, hr2, hfk⟩)))⟩
        | none =>
          rw [hlk] at hrun
          cases hlf : lookupEntry sf (pyStripStr r.2) with
          | some j =>
            rw [hlf] at hrun
            cases hrun
            obtain ⟨j0, r2, hj0, hr2, hfk⟩ := (hfs _).2 _ hlf
            exact ⟨n, rfl, r, hget, Or.inr (Or.inr (Or.inr (Or.inr
              ⟨j0, hj0, r2, hr2, hfk⟩)))⟩
          | none =>
            rw [hlf] at hrun
            cases hrec : readRowsAux rest (n + 1 + 2)
                ((canonicalize_query (pyStripStr r.1), n + 2) :: sk)
                ((pyStripStr r.2, n + 2) :: sf) with
            | ok l =>
              rw [show n + 2 + 1 = n + 1 + 2 from by omega] at hrun
              rw [hrec] at hrun
              simp [Except.map] at hrun
            | error e2 =>
              rw [show n + 2 + 1 = n + 1 + 2 from by omega] at hrun
              rw [hrec] at hrun
              simp only [Except.map] at hrun
              cases hrun
              exact ih (n + 1) _ _ _ hdrop2
                (KInv_step rows keyOf sk n r hks hget)
                (KInv_step rows cellFile sf n r hfs hget) hrec
      · simp only [hval, Bool.not_false, if_pos] at hrun
        cases hrun
        refine ⟨n, rfl, r, hget, Or.inr (Or.inr (Or.inl ?_))⟩
        simpa using hval

/-- A defect-free manifest loads every row. -/
theorem readRowsAux_clean_ok (rows : List (String × String)) :
    ∀ (rest : List (String × String)) (n : Nat) (sk sf : List (String × Nat)),
      rows.drop n = rest →
      KInv rows keyOf sk n → KInv rows cellFile sf n →
      (∀ i, n ≤ i → i < rows.length → ¬ RowBad rows i) →
      ∃ l, readRowsAux rest (n + 2) sk sf = .ok l ∧ l.length = rest.length := by
  intro rest
  induction rest with
  | nil =>
    intro n sk sf _ _ _ _
    exact ⟨[], rfl, rfl⟩
  | cons r rest ih =>
    intro n sk sf hdrop hks hfs hclean
    obtain ⟨hget, hdrop2⟩ := drop_head rows n r rest hdrop
    have hn : n < rows.length := by
      by_contra hge
      rw [List.getElem?_eq_none (by omega)] at hget
      cases hget
    have hnb := hclean n (le_refl n) hn
    have hq : (pyStripStr r.1).isEmpty = false := by
      cases h : (pyStripStr r.1).isEmpty
      · rfl
      · exact absurd ⟨r, hget, Or.inl h⟩ hnb
    have hf : (pyStripStr r.2).isEmpty = false := by
      cases h : (pyStripStr r.2).isEmpty
      · rfl
      · exact absurd ⟨r, hget, Or.inr (Or.inl h)⟩ hnb
    have hval : validate_filename (pyStripStr r.2) = true := by
      cases h : validate_filename (pyStripStr r.2)
      · exact absurd ⟨r, hget, Or.inr (Or.inr (Or.inl h))⟩ hnb
      · rfl
    have hlk : lookupEntry sk (canonicalize_query (pyStripStr r.1)) = Option.none := by
      rw [(hks _).1]
      intro j r2 hj hr2 heq
      exact hclean n (le_refl n) hn
        ⟨r, hget, Or.inr (Or.inr (Or.inr (Or.inl ⟨j, hj, r2, hr2, heq⟩)))⟩
    have hlf : lookupEntry sf (pyStripStr r.2) = Option.none := by
      rw [(hfs _).1]
      intro j r2 hj hr2 heq
      exact hclean n (le_refl n) hn
        ⟨r, hget, Or.inr (Or.inr (Or.inr (Or.inr ⟨j, hj, r2, hr2, heq⟩)))⟩
    obtain ⟨l, hl, hlen⟩ := ih (n + 1)
      ((canonicalize_query (pyStripStr r.1), n + 2) :: sk) ((pyStripStr r.2, n + 2) :: sf)
      hdrop2 (KInv_step rows keyOf sk n r hks hget) (KInv_step rows cellFile sf n r hfs hget)
      (fun i hi hlt => hclean i (by omega) hlt)
    refine ⟨⟨n + 2, pyStripStr r.1, canonicalize_query (pyStripStr r.1), pyStripStr r.2⟩ :: l,
      ?_, by simp [hlen]⟩
    simp only [readRowsAux, hq, hf, Bool.or_self, Bool.false_eq_true, if_neg, not_false_iff,
      hval, Bool.not_true, hlk, hlf]
    rw [show n + 2 + 1 = n + 1 + 2 from by omega, hl]
    rfl

/-- A successful scan certifies that no remaining row is defective. -/
theorem readRowsAux_ok_clean (rows : List (String × String)) :
    ∀ (rest : List (String × String)) (n : Nat) (sk sf : List (String × Nat))
      (l : List QueryRow),
      rows.drop n = rest →
      KInv rows keyOf sk n → KInv rows cellFile sf n →
      readRowsAux rest (n + 2) sk sf = .ok l →
      ∀ i, n ≤ i → i < rows.length → ¬ RowBad rows i := by
  intro rest
  induction rest with
  | nil =>
    intro n sk sf l hdrop _ _ _ i hi hlt
    have hlen := congrArg List.length hdrop
    simp [List.length_drop] at hlen
    omega
  | cons r rest ih =>
    intro n sk sf l hdrop hks hfs hrun i hi hlt
    obtain ⟨hget, hdrop2⟩ := drop_head rows n r rest hdrop
    by_cases hemp : ((pyStripStr r.1).isEmpty || (pyStripStr r.2).isEmpty) = true
    · simp only [readRowsAux, hemp, if_pos] at hrun
      cases hrun
    · simp only [readRowsAux, hemp, Bool.false_eq_true, if_neg, not_false_iff] at hrun
      by_cases hval : validate_filename (pyStripStr r.2)
      · simp only [hval, Bool.not_true, Bool.false_eq_true, if_neg, not_false_iff] at hrun
        cases hlk : lookupEntry sk (canonicalize_query (pyStripStr r.1)) with
        | some j => rw [hlk] at hrun; cases hrun
        | none =>
          rw [hlk] at hrun
          cases hlf : lookupEntry sf (pyStripStr r.2) with
          | some j => rw [hlf] at hrun; cases hrun
          | none =>
            rw [hlf] at hrun
            cases hrec : readRowsAux rest (n + 1 + 2)
                ((canonicalize_query (pyStripStr r.1), n + 2) :: sk)
                ((pyStripStr r.2, n + 2) :: sf) with
            | error e2 =>
              rw [show n + 2 + 1 = n + 1 + 2 from by omega, hrec] at hrun
              simp [Except.map] at hrun
            | ok l2 =>
              have hclean2 := ih (n + 1) _ _ l2 hdrop2
                (KInv_step rows keyOf sk n r hks hget)
                (KInv_step rows cellFile sf n r hfs hget) hrec
              by_cases hin : i = n
              · subst hin
                rintro ⟨r0, hr0, hbad⟩
                rw [hget] at hr0
                cases hr0
                rcases hbad with h | h | h | h | h
                · simp only [cellQuery] at h
                  rw [h] at hemp
                  simp at hemp
                · simp only [cellFile] at h
                  rw [h] at hemp
                  simp at hemp
                · simp only [cellFile] at h
                  rw [h] at hval
                  cases hval
                · obtain ⟨j, hj, r2, hr2, hkey⟩ := h
                  have := ((hks _).1.mp hlk) j r2 hj hr2
                  exact this hkey
                · obtain ⟨j, hj, r2, hr2, hfe⟩ := h
                  have := ((hfs _).1.mp hlf) j r2 hj hr2
                  exact this hfe
              · exact hclean2 i (by omega) hlt
      · rw [Bool.not_eq_true] at hval
        simp only [hval, Bool.not_false, if_pos] at hrun
        cases hrun

/-! ## Pipeline well-shapedness (C1) -/

/-- A truthy executor result that will be read with `.get` must be a
dict. -/
def DictIfTruthy (v : PVal) : Prop := v.truthy = true → ∃ es, v = .dict es

/-- Shape of a usable context result: a dict whose `occasion` and
`weather` entries, when present, are dicts of hashable (scalar)
values. -/
def CtxShaped (v : PVal) : Prop :=
  v.truthy = true → ∃ es, v = .dict es ∧
    (∀ w, lookupEntry es "occasion" = some w →
      ∃ ws, w = .dict ws ∧ ∀ p ∈ ws, (p.2).hashable = true) ∧
    (∀ w, lookupEntry es "weather" = some w →
      ∃ ws, w = .dict ws ∧ ∀ p ∈ ws, (p.2).hashable = true)

/-- Shape of a usable attribute block: a dict carrying a string
`attribute` and hashable `value_i_name` entries. -/
def BlockShaped (v : PVal) : Prop :=
  v.truthy = true → ∃ es, v = .dict es ∧
    (∃ s, lookupEntry es "attribute" = some (.str s)) ∧
    (∀ i, i ∈ ([1, 2, 3] : List Nat) → (dget es (valueKey i "name")).hashable = true)

/-- Shape of a usable category-selection result: a dict whose truthy
`cat_i` entries are strings. -/
def CatShaped (v : PVal) : Prop :=
  v.truthy = true → ∃ es, v = .dict es ∧
    ∀ i, i ∈ ([1, 2, 3, 4, 5] : List Nat) →
      (dget es (catKey i)).truthy = true → ∃ s, dget es (catKey i) = .str s

def promptPaths : List String := PROMPT_MAPPING.map (fun e => e.2)

/-- Well-shapedness of the executor at every call site of the pipeline:
each result is falsy or a mapping of the shape its consumer reads. -/
def WellShaped (o : PipeOracle) : Prop :=
  (∀ q, CtxShaped (o.exec ctxPromptPath (ctxRow q))) ∧
  (∀ q c, DictIfTruthy (o.exec attSelPromptPath [("user_query", q), ("query_context", c)])) ∧
  (∀ p q c, p ∈ promptPaths →
    BlockShaped (o.exec p [("user_query", q), ("query_context", c)])) ∧
  (∀ q fa, CatShaped (o.exec lookComposerPath [("user_query", q), ("fashion_attributes", fa)]))

/-- The stage-3 collection order is a permutation of the submission
order (`concurrent.futures.as_completed`). -/
def ArrivalSound (o : PipeOracle) : Prop := ∀ l, (o.arrive l).Perm l

/-- The stream ends with exactly one terminal event: the last event is
terminal and no earlier event is. -/
def wellTerminated (evs : List Event) : Prop :=
  ∃ t, evs.getLast? = some t ∧ t.isTerminal = true ∧
    evs.dropLast.all (fun e => !e.isTerminal) = true

theorem wt_concat (pre : List Event) (t : Event)
    (hpre : ∀ e ∈ pre, e.isTerminal = false) (ht : t.isTerminal = true) :
    wellTerminated (pre ++ [t]) := by
  refine ⟨t, ?_, ht, ?_⟩
  · rw [List.getLast?_concat]
  · rw [List.dropLast_concat, List.all_eq_true]
    intro e he
    simp [hpre e he]

/-- Context usable by stage 4. -/
def CtxUsable (ctx : PVal) : Prop :=
  ∃ ces, ctx = .dict ces ∧
    (∃ os, getSub ces "occasion" = .dict os ∧ ∀ p ∈ os, (p.2).hashable = true) ∧
    (∃ ws, getSub ces "weather" = .dict ws ∧ ∀ p ∈ ws, (p.2).hashable = true)

theorem contextOf_usable (o : PipeOracle) (q : String)
    (h : CtxShaped (o.exec ctxPromptPath (ctxRow q))) : CtxUsable (contextOf o q) := by
  unfold contextOf
  by_cases ht : (o.exec ctxPromptPath (ctxRow q)).truthy
  · simp only [ht, if_true]
    obtain ⟨es, heq, hocc, hw⟩ := h ht
    refine ⟨es, heq, ?_, ?_⟩
    · unfold getSub
      cases hl : lookupEntry es "occasion" with
      | none => exact ⟨[], by simp [hl], by simp⟩
      | some w =>
        obtain ⟨ws, rfl, hh⟩ := hocc w hl
        exact ⟨ws, by simp [hl], hh⟩
    · unfold getSub
      cases hl : lookupEntry es "weather" with
      | none => exact ⟨[], by simp [hl], by simp⟩
      | some w =>
        obtain ⟨ws, rfl, hh⟩ := hw w hl
        exact ⟨ws, by simp [hl], hh⟩
  · simp only [ht, Bool.false_eq_true, if_false, if_neg, not_false_iff]
    exact ⟨[("occasion", .dict []), ("weather", .dict [])], rfl,
      ⟨[], rfl, by simp⟩, ⟨[], rfl, by simp⟩⟩

theorem dget_hashable (os : List (String × PVal))
    (h : ∀ p ∈ os, (p.2).hashable = true) (k : String) : (dget os k).hashable = true := by
  unfold dget lookupEntry
  cases hf : os.find? (fun e => e.1 == k) with
  | none => rfl
  | some e => simpa using h e (List.mem_of_find?_eq_some hf)

/-- Good blocks entering or leaving stage 4. -/
def GoodBlock (b : PVal) : Prop :=
  ∃ bs, b = .dict bs ∧ (∃ s, lookupEntry bs "attribute" = some (.str s)) ∧
    (∀ i, i ∈ ([1, 2, 3] : List Nat) → (dget bs (valueKey i "name")).hashable = true)

/-- Blocks after stage-4 filtering: dicts with a string attribute. -/
def FilteredBlock (b : PVal) : Prop :=
  ∃ bs, b = .dict bs ∧ ∃ s, lookupEntry bs "attribute" = some (.str s)

theorem valueSlot_ok (bs : List (String × PVal)) (excls : List String) (i : Nat)
    (h : (dget bs (valueKey i "name")).hashable = true) :
    ∃ out, valueSlot bs excls i = .ok out := by
  unfold valueSlot
  by_cases ht : (dget bs (valueKey i "name")).truthy
  · by_cases hm : excls.any (fun s => (dget bs (valueKey i "name")).eqStr s)
    · refine ⟨[], ?_⟩
      simp [ht, h, hm]
    · refine ⟨[(dget bs (valueKey i "id"), dget bs (valueKey i "name"),
        dget bs (valueKey i "score"), dget bs (valueKey i "justification"))], ?_⟩
      simp [ht, h, hm]
  · refine ⟨[], ?_⟩
    simp [ht]

theorem filterBlocks_ok (orules wrules : List (String × List String)) :
    ∀ detailed : List PVal, (∀ b ∈ detailed, GoodBlock b) →
      ∃ out, filterBlocks orules wrules detailed = .ok out ∧ ∀ b ∈ out, FilteredBlock b := by
  intro detailed
  induction detailed with
  | nil => intro _; exact ⟨[], rfl, by simp⟩
  | cons b rest ih =>
    intro h
    obtain ⟨bs, rfl, ⟨s, hattr⟩, hnames⟩ := h b (List.mem_cons_self b rest)
    obtain ⟨out, hout, hgood⟩ := ih (fun b2 hb2 => h b2 (List.mem_cons_of_mem _ hb2))
    by_cases hex : (((lookupEntry orules (normalize_attribute_name s)).getD []) ++
        ((lookupEntry wrules (normalize_attribute_name s)).getD [])).isEmpty
    · refine ⟨.dict bs :: out, ?_, ?_⟩
      · simp only [filterBlocks, hattr, hex, if_pos, hout, Except.map]
      · intro b2 hb2
        rcases List.mem_cons.mp hb2 with rfl | hb2
        · exact ⟨bs, rfl, s, hattr⟩
        · exact hgood b2 hb2
    · obtain ⟨o1, ho1⟩ := valueSlot_ok bs
        (((lookupEntry orules (normalize_attribute_name s)).getD []) ++
          ((lookupEntry wrules (normalize_attribute_name s)).getD [])) 1 (hnames 1 (by simp))
      obtain ⟨o2, ho2⟩ := valueSlot_ok bs
        (((lookupEntry orules (normalize_attribute_name s)).getD []) ++
          ((lookupEntry wrules (normalize_attribute_name s)).getD [])) 2 (hnames 2 (by simp))
      obtain ⟨o3, ho3⟩ := valueSlot_ok bs
        (((lookupEntry orules (normalize_attribute_name s)).getD []) ++
          ((lookupEntry wrules (normalize_attribute_name s)).getD [])) 3 (hnames 3 (by simp))
      obtain ⟨nv, hnv⟩ : ∃ nv, newValues bs
          (((lookupEntry orules (normalize_attribute_name s)).getD []) ++
            ((lookupEntry wrules (normalize_attribute_name s)).getD [])) = .ok nv := by
        refine ⟨o1 ++ o2 ++ o3, ?_⟩
        simp [newValues, ho1, ho2, ho3, Bind.bind, Except.bind]
      by_cases hnve : nv.isEmpty
      · refine ⟨out, ?_, hgood⟩
        simp only [filterBlocks, hattr, hex, Bool.false_eq_true, if_neg, not_false_iff,
          Bind.bind, Except.bind, hnv, hout, hnve, if_pos]
      · refine ⟨.dict (("attribute", PVal.str s) :: renumber nv 1) :: out, ?_, ?_⟩
        · simp only [filterBlocks, hattr, hex, Bool.false_eq_true, if_neg, not_false_iff,
            Bind.bind, Except.bind, hnv, hout, hnve, if_pos]
        · intro b2 hb2
          rcases List.mem_cons.mp hb2 with rfl | hb2
          · exact ⟨_, rfl, s, by simp [lookupEntry]⟩
          · exact hgood b2 hb2

theorem stage4Filter_ok (ctx : PVal) (detailed : List PVal) (hctx : CtxUsable ctx)
    (hblocks : ∀ b ∈ detailed, GoodBlock b) :
    ∃ filtered, stage4Filter ctx detailed = .ok filtered ∧
      ∀ b ∈ filtered, FilteredBlock b := by
  obtain ⟨ces, rfl, ⟨os, hos, hosh⟩, ⟨ws, hws, hwsh⟩⟩ := hctx
  obtain ⟨out, hout, hgood⟩ := filterBlocks_ok
    (occLookup (dget os "formality", dget os "time", dget os "location", dget os "activity"))
    (weatherLookup (dget ws "climate")) detailed hblocks
  refine ⟨out, ?_, hgood⟩
  simp only [stage4Filter, hos, hws, Bind.bind, Except.bind,
    dget_hashable os hosh "formality", dget_hashable os hosh "time",
    dget_hashable os hosh "location", dget_hashable os hosh "activity",
    dget_hashable ws hwsh "climate", Bool.and_self, Bool.not_true, Bool.false_eq_true,
    if_neg, not_false_iff]
  exact hout

theorem fashionOf_ok : ∀ blocks : List PVal, (∀ b ∈ blocks, FilteredBlock b) →
    ∃ fa, fashionOf blocks = .ok fa := by
  intro blocks
  induction blocks with
  | nil => intro _; exact ⟨[], rfl⟩
  | cons b rest ih =>
    intro h
    obtain ⟨bs, rfl, _⟩ := h b (List.mem_cons_self b rest)
    obtain ⟨fa, hfa⟩ := ih (fun b2 hb2 => h b2 (List.mem_cons_of_mem _ hb2))
    cases hv : fashionOf (PVal.dict bs :: rest) with
    | ok fa2 => exact ⟨fa2, rfl⟩
    | error e => simp [fashionOf, hfa, Except.map] at hv

theorem collectCats_str (ces : List (String × PVal)) (thr : Int)
    (h : ∀ i, i ∈ ([1, 2, 3, 4, 5] : List Nat) →
      (dget ces (catKey i)).truthy = true → ∃ s, dget ces (catKey i) = .str s) :
    ∀ c ∈ collectCats ces thr, ∃ s, c = .str s := by
  intro c hc
  unfold collectCats at hc
  rcases List.mem_filterMap.mp hc with ⟨i, hi, hcond⟩
  by_cases hcnd : ((dget ces (catKey i)).truthy && (dget ces (catKey i ++ "_score")).isInstInt
      && decide (thr < (dget ces (catKey i ++ "_score")).intOf)) = true
  · rw [if_pos hcnd] at hcond
    cases hcond
    have ht : (dget ces (catKey i)).truthy = true := by
      simp only [Bool.and_eq_true] at hcnd
      exact hcnd.1.1
    exact h i hi ht
  · rw [if_neg hcnd] at hcond
    cases hcond

theorem searchTriplesOf_ok (db : DB) : ∀ blocks : List PVal,
    (∀ b ∈ blocks, FilteredBlock b) → ∃ t, searchTriplesOf db blocks = .ok t := by
  intro blocks
  induction blocks with
  | nil => intro _; exact ⟨[], rfl⟩
  | cons b rest ih =>
    intro h
    obtain ⟨bs, rfl, s, hattr⟩ := h b (List.mem_cons_self b rest)
    obtain ⟨t, htail⟩ := ih (fun b2 hb2 => h b2 (List.mem_cons_of_mem _ hb2))
    cases hv : searchTriplesOf db (PVal.dict bs :: rest) with
    | ok t2 => exact ⟨t2, rfl⟩
    | error e =>
      cases hinfo : lookupEntry ATTRIBUTE_INFO (normalize_attribute_name s) with
      | none =>
        simp only [searchTriplesOf, Bind.bind, Except.bind, htail, hattr,
          Option.getD_some, hinfo] at hv
        exact Except.noConfusion hv
      | some info =>
        cases hfind : db.attributes.find? (fun a => a.2 == info.attr_name) with
        | none =>
          simp only [searchTriplesOf, Bind.bind, Except.bind, htail, hattr,
            Option.getD_some, hinfo, hfind] at hv
          exact Except.noConfusion hv
        | some a =>
          simp only [searchTriplesOf, Bind.bind, Except.bind, htail, hattr,
            Option.getD_some, hinfo, hfind] at hv
          exact Except.noConfusion hv

theorem stage6_ok (db : DB) (blocks : List PVal)
    (hblocks : ∀ b ∈ blocks, FilteredBlock b) :
    ∀ (cats : List PVal) (acc : List (PVal × List RankedRow)),
      (∀ c ∈ cats, ∃ s, c = .str s) →
      ∃ recs, stage6 db blocks cats acc = .ok recs := by
  intro cats
  induction cats with
  | nil => intro acc _; exact ⟨acc, rfl⟩
  | cons c rest ih =>
    intro acc h
    obtain ⟨s, rfl⟩ := h c (List.mem_cons_self c rest)
    have hsearch : ∃ rows, stage6Search db blocks (.str s) = .ok rows := by
      unfold stage6Search
      by_cases hb : blocks.isEmpty
      · exact ⟨[], by simp [hb]⟩
      · obtain ⟨t, ht⟩ := searchTriplesOf_ok db blocks hblocks
        by_cases hte : t.isEmpty
        · exact ⟨[], by simp [hb, ht, hte, Bind.bind, Except.bind]⟩
        · exact ⟨searchCore db t (some s) 3,
            by simp [hb, ht, hte, Bind.bind, Except.bind]⟩
    obtain ⟨rows, hrows⟩ := hsearch
    obtain ⟨recs, hrecs⟩ := ih (assocSetP acc (.str s) rows)
      (fun c2 hc2 => h c2 (List.mem_cons_of_mem _ hc2))
    refine ⟨recs, ?_⟩
    simp only [stage6, Bind.bind, Except.bind, hrows, PVal.hashable, Bool.not_true,
      Bool.false_eq_true, if_neg, not_false_iff]
    exact hrecs

/-! ## Claim theorems -/

/-- Stage-2 executor result as `process_user_query_streaming` computes
it. -/
def stage2Result (o : PipeOracle) (q : String) : PVal :=
  o.exec attSelPromptPath (rowWithContext q (contextOf o q))

/-- A falsy stage-2 result ends the stream at the stage-2 error event. -/
theorem runStream_stage2_falsy (o : PipeOracle) (db : DB) (q : String) (thr : Int)
    (h : (stage2Result o q).truthy = false) :
    runStream o db q thr =
      ([.progress stepMsg1, .contextResult (contextOf o q), .progress stepMsg2,
        .errorEv "Failed to get initial attribute selection."], Option.none) := by
  simp only [runStream, stage2Result] at *
  rw [h]
  simp

theorem analyzeSingle_cases (o : PipeOracle) (a : PVal) (row : List (String × String)) :
    analyzeSingle o a row = .none ∨
      ∃ s p, a = .str s ∧ lookupEntry PROMPT_MAPPING s = some p ∧
        analyzeSingle o a row = o.exec p row := by
  cases a with
  | str s =>
    cases hp : lookupEntry PROMPT_MAPPING s with
    | none => left; simp [analyzeSingle, hp]
    | some p => right; exact ⟨s, p, rfl, hp, by simp [analyzeSingle, hp]⟩
  | none => left; rfl
  | bool b => left; rfl
  | int n => left; rfl
  | list l => left; rfl
  | dict d => left; rfl

theorem lookup_mem_paths (s p : String) (h : lookupEntry PROMPT_MAPPING s = some p) :
    p ∈ promptPaths := by
  unfold lookupEntry at h
  cases hf : PROMPT_MAPPING.find? (fun e => e.1 == s) with
  | none => rw [hf] at h; cases h
  | some e =>
    rw [hf] at h
    simp at h
    exact List.mem_map.mpr ⟨e, List.mem_of_find?_eq_some hf, h⟩

/-- An executor whose every call fails (returns `None`). -/
def noneOracle : PipeOracle := ⟨fun _ _ => .none, id⟩

/-- An executor whose stage-2 call returns a truthy non-dict value (the
raw-text pass-through a CSV-shaped model response produces). -/
def csvOracle : PipeOracle :=
  ⟨fun p _ => if p = attSelPromptPath then .str "a,b" else .none, id⟩

/-- C2: `canonicalize_query` is not idempotent.  On `"a ! b"` the
whitespace collapse runs before the punctuation strip, so one application
leaves the double space `"a  b"` and a second application contracts it to
`"a b"`. -/
theorem canonicalize_query_not_idempotent :
    canonicalize_query "a ! b" = "a  b" ∧
    canonicalize_query (canonicalize_query "a ! b") = "a b" ∧
    canonicalize_query (canonicalize_query "a ! b") ≠ canonicalize_query "a ! b" :=
  ⟨by decide, by decide, by decide⟩

/-- C3: cache read is total and advisory.  For every canonical key,
index and cache-directory state, `get_cached_result` (a total Lean
function, mirroring the catch-all `except` of the source) returns `None`
when the key is absent from the index, when the resolved filename is
empty, when the backing file is missing, and when reading or parsing the
file fails; when the file parses to a dict envelope it returns the
envelope's `result` field, with no condition whatsoever on the stored
`query_norm` (a mismatch with the lookup key still returns the stored
result). -/
theorem get_cached_result_contract :
    ∀ (key : String) (index : List (String × String)) (fs : String → FileState),
      (lookupEntry index key = Option.none → get_cached_result key index fs = Option.none) ∧
      (∀ fn, lookupEntry index key = some fn → fn.isEmpty = true →
        get_cached_result key index fs = Option.none) ∧
      (∀ fn, lookupEntry index key = some fn → fs fn = .missing →
        get_cached_result key index fs = Option.none) ∧
      (∀ fn, lookupEntry index key = some fn → fs fn = .unparsable →
        get_cached_result key index fs = Option.none) ∧
      (∀ fn es, lookupEntry index key = some fn → fn.isEmpty = false →
        fs fn = .parsed (.dict es) →
        get_cached_result key index fs = pyOpt (dget es "result")) := by
  intro key index fs
  refine ⟨?_, ?_, ?_, ?_, ?_⟩
  · intro h; simp [get_cached_result, h]
  · intro fn h he; simp [get_cached_result, h, he]
  · intro fn h hm
    by_cases hfe : fn.isEmpty <;> simp [get_cached_result, h, hfe, hm]
  · intro fn h hu
    by_cases hfe : fn.isEmpty <;> simp [get_cached_result, h, hfe, hu]
  · intro fn es h he hp
    simp [get_cached_result, h, he, hp]

/-- C3 witness: a manifest entry whose backing file is missing reads as
`None`. -/
theorem get_cached_result_contract_witness :
    get_cached_result "k" [("k", "f.json")] (fun _ => FileState.missing) = Option.none :=
  (get_cached_result_contract "k" [("k", "f.json")] (fun _ => FileState.missing)).2.2.1
    "f.json" rfl rfl

/-- C5: cache write contract.  When the envelope carries a truthy
`query_norm` but its `result` is not a dict, `write_cache` fails without
touching any file (the returned directory state is the input one);
otherwise it writes the temp sibling, renames it over the destination and
re-parses: a parseable persisted file yields success with the destination
path, and an unparsable or missing persisted file propagates an error —
never a success — while the directory still holds whatever landed on
disk. -/
theorem write_cache_contract :
    ∀ (fs : String → FileState) (filename : String) (envelope : List (String × PVal))
      (persisted : FileState),
      ((dget envelope "query_norm").truthy = true → (dget envelope "result").isDict = false →
        write_cache fs filename envelope persisted =
          (.error "Envelope missing or invalid result dict", fs)) ∧
      ((dget envelope "query_norm").truthy = false ∨ (dget envelope "result").isDict = true →
        (∀ v, persisted = .parsed v →
          write_cache fs filename envelope persisted =
            (.ok filename, fsUpdate (fsUpdate (fsUpdate fs (tmpName filename) persisted)
              (tmpName filename) .missing) filename persisted)) ∧
        (persisted = .missing ∨ persisted = .unparsable →
          ∃ msg, write_cache fs filename envelope persisted =
            (.error msg, fsUpdate (fsUpdate (fsUpdate fs (tmpName filename) persisted)
              (tmpName filename) .missing) filename persisted))) := by
  intro fs filename envelope persisted
  constructor
  · intro h1 h2
    simp [write_cache, h1, h2]
  · intro h
    have hc : ((dget envelope "query_norm").truthy && !(dget envelope "result").isDict) = false := by
      rcases h with h | h <;> simp [h]
    constructor
    · intro v hv
      simp [write_cache, hc, hv]
    · intro hv
      rcases hv with hv | hv <;> subst hv
      · exact ⟨"reopen failed: file missing", by simp [write_cache, hc]⟩
      · exact ⟨"reopen failed: invalid JSON", by simp [write_cache, hc]⟩

/-- C5 witness: a dict-result envelope persisted as parseable JSON is
written and re-validated successfully. -/
theorem write_cache_contract_witness :
    write_cache (fun _ => FileState.missing) "a.json"
      [("query_norm", .str "k"), ("result", .dict [])]
      (.parsed (.dict [("query_norm", .str "k"), ("result", .dict [])])) =
    (.ok "a.json",
      fsUpdate (fsUpdate (fsUpdate (fun _ => FileState.missing) (tmpName "a.json")
        (.parsed (.dict [("query_norm", .str "k"), ("result", .dict [])])))
        (tmpName "a.json") .missing) "a.json"
        (.parsed (.dict [("query_norm", .str "k"), ("result", .dict [])]))) :=
  ((write_cache_contract (fun _ => FileState.missing) "a.json"
    [("query_norm", .str "k"), ("result", .dict [])]
    (.parsed (.dict [("query_norm", .str "k"), ("result", .dict [])]))).2
    (Or.inr (by decide))).1 _ rfl

/-- C9: a falsy stage-2 attribute-selection result makes the pipeline
emit exactly the two progress events, the context event, and one terminal
`error` event, with no exception and nothing after it: no stage-3
through stage-6 events exist in the stream at all. -/
theorem stage2_failure_terminates :
    ∀ (o : PipeOracle) (db : DB) (q : String) (thr : Int),
      (stage2Result o q).truthy = false →
      runStream o db q thr =
        ([.progress stepMsg1, .contextResult (contextOf o q), .progress stepMsg2,
          .errorEv "Failed to get initial attribute selection."], Option.none) :=
  fun o db q thr h => runStream_stage2_falsy o db q thr h

/-- C9 witness: the always-failing executor ends the stream at stage 2
with the terminal error event. -/
theorem stage2_failure_terminates_witness :
    (stage2Result noneOracle "q").truthy = false ∧
    runStream noneOracle happyDB "q" 6 =
      ([.progress stepMsg1, .contextResult (contextOf noneOracle "q"), .progress stepMsg2,
        .errorEv "Failed to get initial attribute selection."], Option.none) :=
  ⟨rfl, stage2_failure_terminates noneOracle happyDB "q" 6 rfl⟩

/-- C4: manifest load raises a row-identifying validation error exactly
when some row is defective — empty query or filename, invalid filename
(length, suffix, leading dot, `..` segment, character allowlist, all
inside `validate_filename`), duplicate canonical key, or duplicate
filename — and the reported row number (rows numbered from 2, after the
header) is that of a defective row; a manifest with no defective row
loads every row successfully. -/
theorem read_rows_validation :
    ∀ rows : List (String × String),
      ((∃ e, read_rows rows = .error e) ↔ ∃ i, RowBad rows i) ∧
      (∀ e, read_rows rows = .error e → ∃ i, e.line = i + 2 ∧ RowBad rows i) ∧
      ((∀ i, i < rows.length → ¬ RowBad rows i) →
        ∃ l, read_rows rows = .ok l ∧ l.length = rows.length) := by
  intro rows
  have hks := KInv_nil rows keyOf
  have hfs := KInv_nil rows cellFile
  refine ⟨⟨?_, ?_⟩, ?_, ?_⟩
  · rintro ⟨e, he⟩
    obtain ⟨i, _, hbad⟩ := readRowsAux_error_bad rows rows 0 [] [] e rfl hks hfs he
    exact ⟨i, hbad⟩
  · rintro ⟨i, hbad⟩
    cases hrun : read_rows rows with
    | error e => exact ⟨e, rfl⟩
    | ok l =>
      exfalso
      have hclean := readRowsAux_ok_clean rows rows 0 [] [] l rfl hks hfs hrun
      obtain ⟨r, hr, hb⟩ := hbad
      have hi : i < rows.length := by
        by_contra hge
        rw [List.getElem?_eq_none (by omega)] at hr
        cases hr
      exact hclean i (by omega) hi ⟨r, hr, hb⟩
  · intro e he
    exact readRowsAux_error_bad rows rows 0 [] [] e rfl hks hfs he
  · intro hclean
    exact readRowsAux_clean_ok rows rows 0 [] [] rfl hks hfs (fun i _ hlt => hclean i hlt)

/-- C4 witness: the defect-free one-row manifest loads its single row. -/
theorem read_rows_validation_witness :
    ∃ l, read_rows [("a", "a.json")] = .ok l ∧ l.length = 1 := by
  apply (read_rows_validation [("a", "a.json")]).2.2
  intro i hi
  rintro ⟨r, hr, hbad⟩
  have hl1 : ([("a", "a.json")] : List (String × String)).length = 1 := rfl
  have hi0 : i = 0 := by omega
  subst hi0
  rw [show ([("a", "a.json")] : List (String × String))[0]? = some ("a", "a.json")
    from rfl] at hr
  cases hr
  rcases hbad with h | h | h | h | h
  · exact absurd h (by decide)
  · exact absurd h (by decide)
  · exact absurd h (by decide)
  · obtain ⟨j, hj, _⟩ := h; omega
  · obtain ⟨j, hj, _⟩ := h; omega

/-- C6: Product Ranker postcondition.  An empty detailed-results input,
or one that yields no resolvable triples, returns the empty list; and
every successful result is sorted by non-increasing `relevance_score`,
has at most `limit` rows, and carries the requested category on every
row when a category filter is supplied. -/
theorem search_products_postcondition :
    ∀ (db : DB) (blocks : List PVal) (cat : Option String) (lim : Nat),
      (blocks = [] → search_products_with_details db blocks cat lim = .ok []) ∧
      (searchTriplesOf db blocks = .ok [] →
        search_products_with_details db blocks cat lim = .ok []) ∧
      (∀ rows, search_products_with_details db blocks cat lim = .ok rows →
        rows.Pairwise (fun a b => b.relevance_score ≤ a.relevance_score) ∧
        rows.length ≤ lim ∧
        ∀ c, cat = some c → ∀ r ∈ rows, r.category = c) := by
  intro db blocks cat lim
  refine ⟨?_, ?_, ?_⟩
  · intro h; subst h; rfl
  · intro h
    unfold search_products_with_details
    by_cases hb : blocks.isEmpty
    · simp [hb]
    · simp [hb, h, Bind.bind, Except.bind]
  · intro rows h
    unfold search_products_with_details at h
    by_cases hb : blocks.isEmpty
    · simp only [hb, if_pos] at h
      cases h
      simp
    · cases ht : searchTriplesOf db blocks with
      | error e =>
        simp [hb, ht, Bind.bind, Except.bind] at h
      | ok t =>
        by_cases hte : t.isEmpty
        · simp only [hb, Bool.false_eq_true, if_neg, not_false_iff, ht, Bind.bind,
            Except.bind, hte, if_pos] at h
          cases h
          simp
        · simp only [hb, Bool.false_eq_true, if_neg, not_false_iff, ht, Bind.bind,
            Except.bind, hte, if_neg] at h
          cases h
          refine ⟨searchCore_sorted db t cat lim, searchCore_length db t cat lim, ?_⟩
          intro c hc
          subst hc
          exact searchCore_category db t c lim

/-- Detail block for the C6 witness. -/
def c6Block : PVal :=
  .dict [("attribute", .str "Material"), ("value_1_id", .int 10), ("value_1_score", .int 9)]

/-- The row the C6 witness search returns. -/
def c6Row : RankedRow := ⟨100, "Vestido A", "R$ 123,45", "u", "Vestidos", "d", 45⟩

/-- C6 witness: on the concrete store, an empty input returns `ok []`,
and the one-block search returns rows within the limit all carrying the
filtered category. -/
theorem search_products_postcondition_witness :
    search_products_with_details happyDB [] (some "X") 3 = .ok [] ∧
    (∀ r ∈ [c6Row], r.category = "Vestidos") ∧ ([c6Row]).length ≤ 3 :=
  ⟨(search_products_postcondition happyDB [] (some "X") 3).1 rfl,
   ((search_products_postcondition happyDB [c6Block] (some "Vestidos") 3).2.2 [c6Row]
     rfl).2.2 "Vestidos" rfl,
   ((search_products_postcondition happyDB [c6Block] (some "Vestidos") 3).2.2 [c6Row]
     rfl).2.1⟩

/-- A ranker row for the C7 theorems. -/
def capRow : RankedRow :=
  ⟨1, "n", "R$ 0,01", "u", "c", "d", 1⟩

/-- C7 counterexample: with `cap = 0` the inner loop appends a row
before testing `total >= cap`, so one product is emitted and the grouped
result exceeds the cap. -/
theorem group_products_cap_cex :
    groupTotal (group_products [("c", [capRow])] 0) = 1 ∧
    ¬ groupTotal (group_products [("c", [capRow])] 0) ≤ 0 := by
  constructor
  · rfl
  · decide

/-- C7 (amended): for every category-to-products mapping the grouped
result contains each product id at most once across all categories, and
for every cap of at least 1 it contains at most `cap` products in total
(the bound fails only for `cap = 0`, where the append-before-check loop
still emits one product). -/
theorem group_products_amended :
    ∀ (finals : List (String × List RankedRow)) (cap : Nat),
      ((groupedRows (group_products finals cap)).map (fun g => g.product_id)).Nodup ∧
      (1 ≤ cap → groupTotal (group_products finals cap) ≤ cap) := by
  intro finals cap
  constructor
  · exact (groupAux_nodup cap finals [] 0).1
  · intro h
    have := groupAux_cap cap finals [] 0 (by omega)
    simpa using this

/-- C7 witness: with cap 1 and a duplicated product across two
categories, the grouped result is within the cap and duplicate-free. -/
theorem group_products_amended_witness :
    1 ≤ 1 ∧
    groupTotal (group_products [("c", [capRow]), ("e", [capRow])] 1) ≤ 1 ∧
    ((groupedRows (group_products [("c", [capRow]), ("e", [capRow])] 1)).map
      (fun g => g.product_id)).Nodup :=
  ⟨le_refl 1,
   (group_products_amended [("c", [capRow]), ("e", [capRow])] 1).2 (le_refl 1),
   (group_products_amended [("c", [capRow]), ("e", [capRow])] 1).1⟩

/-- Store for the C10 witness: one attribute row for `color`. -/
def c10DB : DB := ⟨[(2, "color")], [], []⟩

/-- Block whose value id and score are present but unparseable. -/
def c10Entries : List (String × PVal) :=
  [("attribute", .str "Cor"), ("value_1_id", .str "abc"), ("value_1_score", .str "")]

/-- C10: `to_int_safe` is total (a plain Lean function, mirroring the
catch-all `except` of the source) and returns its default on `None`, the
empty string and every digit-free string; consequently the ranker builds
an `(attribute_id, 0, 0)` triple from a block whose value id and score
are present but unparseable, instead of failing or skipping the entry. -/
theorem to_int_safe_default_and_ranker_triple :
    (∀ d : Int, to_int_safe .none d = d) ∧
    (∀ d : Int, to_int_safe (.str "") d = d) ∧
    (∀ (s : String) (d : Int), s.data.all (fun c => !c.isDigit) = true →
      to_int_safe (.str s) d = d) ∧
    (∀ (db : DB) (es : List (String × PVal)) (raw : String) (info : AttrInfo)
        (a : Int × String) (x y : String),
      lookupEntry es "attribute" = some (.str raw) →
      lookupEntry ATTRIBUTE_INFO (normalize_attribute_name raw) = some info →
      db.attributes.find? (fun p => p.2 == info.attr_name) = some a →
      lookupEntry es "value_1_id" = some (.str x) →
      lookupEntry es "value_1_score" = some (.str y) →
      x.data.all (fun c => !c.isDigit) = true →
      y.data.all (fun c => !c.isDigit) = true →
      (dget es "value_2_id").isNone = true →
      (dget es "value_3_id").isNone = true →
      searchTriplesOf db [.dict es] = .ok [(a.1, 0, 0)]) := by
  refine ⟨fun d => rfl, fun d => rfl, fun s d h => to_int_safe_nodigit s d h, ?_⟩
  intro db es raw info a x y h1 h2 h3 h4 h5 hx hy h6 h7
  have hnone : ∀ v : PVal, v.isNone = true → v = .none := by
    intro v hv
    cases v <;> simp [PVal.isNone] at hv ⊢
  have hid : dget es "value_1_id" = .str x := by simp [dget, h4]
  have hsc : dget es "value_1_score" = .str y := by simp [dget, h5]
  have hv2 : dget es "value_2_id" = .none := hnone _ h6
  have hv3 : dget es "value_3_id" = .none := hnone _ h7
  have hk1i : ("value_" ++ String.mk (natDigits 1) ++ "_id") = "value_1_id" := rfl
  have hk1s : ("value_" ++ String.mk (natDigits 1) ++ "_score") = "value_1_score" := rfl
  have hk2i : ("value_" ++ String.mk (natDigits 2) ++ "_id") = "value_2_id" := rfl
  have hk3i : ("value_" ++ String.mk (natDigits 3) ++ "_id") = "value_3_id" := rfl
  simp only [searchTriplesOf, Bind.bind, Except.bind, h1, Option.getD_some, h2, h3,
    hk1i, hk1s, hk2i, hk3i, hid, hsc, hv2, hv3, PVal.isNone, Bool.not_true, Bool.not_false,
    Bool.false_and, Bool.and_self, if_false, if_pos, Bool.true_and,
    to_int_safe_nodigit x 0 hx, to_int_safe_nodigit y 0 hy]
  simp

/-- C10 witness: the concrete block with `value_1_id = "abc"` and
`value_1_score = ""` yields exactly the `(2, 0, 0)` triple on the
concrete store, and the defaults hold at `None`, `""` and `"abc"`. -/
theorem to_int_safe_default_and_ranker_triple_witness :
    to_int_safe .none 0 = 0 ∧ to_int_safe (.str "") 0 = 0 ∧
    to_int_safe (.str "abc") 0 = 0 ∧
    searchTriplesOf c10DB [.dict c10Entries] = .ok [(2, 0, 0)] :=
  ⟨to_int_safe_default_and_ranker_triple.1 0,
   to_int_safe_default_and_ranker_triple.2.1 0,
   to_int_safe_default_and_ranker_triple.2.2.1 "abc" 0 (by decide),
   to_int_safe_default_and_ranker_triple.2.2.2 c10DB c10Entries "Cor" ⟨"color", "color"⟩
     (2, "color") "abc" "" rfl (by decide) rfl rfl rfl (by decide) (by decide) rfl rfl⟩

/-- C8: the Prompt Executor is total into `Option` — every failure mode
(missing template arguments, template-file read failure, formatting
failure on missing substitution keys, model-call failure or `None`
response, response shape mismatch, unrecoverable parse failure) yields
`None`, a parsed body is returned as is, and a CSV-shaped response body
passes through as raw text. -/
theorem execute_prompt_contract :
    ∀ (o : ExecOracle) (row : List (String × String)) (tpl path : Option String),
      (tpl = Option.none → path = Option.none → execute_prompt o row tpl path = Option.none) ∧
      (∀ p, tpl = Option.none → path = some p → o.loadPrompt p = .error () →
        execute_prompt o row tpl path = Option.none) ∧
      (∀ t, effTemplate o tpl path = .ok t → o.prepare row t = .error () →
        execute_prompt o row tpl path = Option.none) ∧
      (∀ t pr, effTemplate o tpl path = .ok t → o.prepare row t = .ok pr →
        o.callModel = .error () → execute_prompt o row tpl path = Option.none) ∧
      (∀ t pr, effTemplate o tpl path = .ok t → o.prepare row t = .ok pr →
        o.callModel = .ok Option.none → execute_prompt o row tpl path = Option.none) ∧
      (∀ t pr resp e, effTemplate o tpl path = .ok t → o.prepare row t = .ok pr →
        o.callModel = .ok (some resp) →
        parse_api_response o.jsonLoads o.litEval resp = .error e →
        execute_prompt o row tpl path = Option.none) ∧
      (∀ t pr resp v, effTemplate o tpl path = .ok t → o.prepare row t = .ok pr →
        o.callModel = .ok (some resp) →
        parse_api_response o.jsonLoads o.litEval resp = .ok v →
        execute_prompt o row tpl path = v) ∧
      (∀ c : String,
        ((c.data.takeWhile (fun ch => ch != '\n')).contains ';' ||
         (c.data.takeWhile (fun ch => ch != '\n')).contains ',' ||
         hasSubChars ['c', 's', 'v'] (c.data.takeWhile (fun ch => ch != '\n'))) = true →
        parse_api_response o.jsonLoads o.litEval (.content c) = .ok (some (.str c))) := by
  intro o row tpl path
  refine ⟨?_, ?_, ?_, ?_, ?_, ?_, ?_, ?_⟩
  · intro h1 h2; subst h1; subst h2; rfl
  · intro p h1 h2 h3
    subst h1; subst h2
    simp [execute_prompt, effTemplate, h3]
  · intro t h1 h2
    simp [execute_prompt, h1, h2]
  · intro t pr h1 h2 h3
    simp [execute_prompt, h1, h2, h3]
  · intro t pr h1 h2 h3
    simp [execute_prompt, h1, h2, h3]
  · intro t pr resp e h1 h2 h3 h4
    simp [execute_prompt, h1, h2, h3, h4]
  · intro t pr resp v h1 h2 h3 h4
    simp [execute_prompt, h1, h2, h3, h4]
  · intro c hc
    simp only [parse_api_response, hc, if_pos]

/-- An oracle whose template read fails. -/
def failingExecOracle : ExecOracle :=
  ⟨fun _ => .error (), fun _ _ => .error (), .error (), fun _ => .error (), fun _ => .error ()⟩

/-- C8 witness: a missing template file yields `None`, and a CSV-shaped
body passes through as raw text. -/
theorem execute_prompt_contract_witness :
    execute_prompt failingExecOracle [] Option.none (some "p.txt") = Option.none ∧
    parse_api_response failingExecOracle.jsonLoads failingExecOracle.litEval
      (.content "a;b") = .ok (some (.str "a;b")) :=
  ⟨(execute_prompt_contract failingExecOracle [] Option.none (some "p.txt")).2.1
     "p.txt" rfl rfl rfl,
   (execute_prompt_contract failingExecOracle [] Option.none (some "p.txt")).2.2.2.2.2.2.2
     "a;b" (by decide)⟩

/-- C1 counterexample: an executor behavior (a CSV-shaped raw-text
stage-2 result, which `execute_prompt` passes through as a truthy
string) makes `process_user_query_streaming` raise `AttributeError` out
of the generator after the stage-2 progress event: the stream ends with
no terminal event and an unhandled exception crosses to the consumer. -/
theorem stream_unhandled_exception_cex :
    runStream csvOracle happyDB "q" 6 =
      ([.progress stepMsg1, .contextResult emptyContext, .progress stepMsg2],
        some (.attributeError "attribute_results get on non-dict")) := rfl

/-- C1 (amended): for every relational store, query, threshold, executor
behavior whose results are falsy or well-shaped mappings for the call
site that consumes them (`WellShaped`), and every stage-3 completion
order that is a permutation of the submissions (`ArrivalSound`), the
event stream ends with exactly one well-formed terminal event
(`final_result`, `final_message`, or a single `error`) and no exception
crosses the stream boundary.  The shape restriction is forced by the
counterexample: a truthy non-mapping executor result (for example the
CSV raw-text pass-through) makes the generator raise. -/
theorem stream_terminal_event_amended :
    ∀ (o : PipeOracle) (db : DB) (q : String) (thr : Int),
      WellShaped o → ArrivalSound o →
      (runStream o db q thr).2 = Option.none ∧ wellTerminated (runStream o db q thr).1 := by
  intro o db q thr hws harr
  obtain ⟨hctxS, hattS, hblkS, hcatS⟩ := hws
  suffices h : ∃ evs, runStream o db q thr = (evs, Option.none) ∧ wellTerminated evs by
    obtain ⟨evs, he, hw⟩ := h
    rw [he]
    exact ⟨rfl, hw⟩
  by_cases htr : (o.exec attSelPromptPath (rowWithContext q (contextOf o q))).truthy
  case neg =>
    rw [Bool.not_eq_true] at htr
    refine ⟨_, runStream_stage2_falsy o db q thr htr, ?_⟩
    exact wt_concat [.progress stepMsg1, .contextResult (contextOf o q), .progress stepMsg2]
      (.errorEv "Failed to get initial attribute selection.")
      (by simp [Event.isTerminal]) rfl
  case pos =>
    obtain ⟨aes, haes0⟩ := hattS q (pyDumps (contextOf o q)) htr
    have haes : o.exec attSelPromptPath (rowWithContext q (contextOf o q)) = .dict aes := haes0
    have htr2 : (PVal.dict aes).truthy = true := by rw [← haes]; exact htr
    simp only [runStream, haes, htr2, Bool.not_true, Bool.false_eq_true, if_neg,
      not_false_iff]
    set detailed := (o.arrive ((topAttrs aes).map
      (fun a => analyzeSingle o a (rowWithContext q (contextOf o q))))).filter PVal.truthy
      with hdet
    by_cases hde : detailed.isEmpty
    · simp only [hde, if_pos]
      refine ⟨_, rfl, ?_⟩
      exact wt_concat
        ([.progress stepMsg1, .contextResult (contextOf o q), .progress stepMsg2] ++
          [.intermediateAttributes (topAttrs aes), .progress stepMsg3])
        (.errorEv "Could not get detailed attribute values.")
        (by simp [Event.isTerminal]) rfl
    · simp only [hde, Bool.false_eq_true, if_neg, not_false_iff]
      have hgoodD : ∀ b ∈ detailed, GoodBlock b := by
        intro b hb
        rw [hdet] at hb
        have hb1 := List.mem_filter.mp hb
        have hb2 : b ∈ (topAttrs aes).map
            (fun a => analyzeSingle o a (rowWithContext q (contextOf o q))) :=
          ((harr _).mem_iff).mp hb1.1
        obtain ⟨a, _, hba⟩ := List.mem_map.mp hb2
        rcases analyzeSingle_cases o a (rowWithContext q (contextOf o q)) with
          hnone | ⟨s, p, ha2, hp, hex⟩
        · rw [← hba, hnone] at hb1
          exact absurd hb1.2 (by simp [PVal.truthy])
        · have hshape : BlockShaped (o.exec p (rowWithContext q (contextOf o q))) :=
            hblkS p q (pyDumps (contextOf o q)) (lookup_mem_paths s p hp)
          rw [← hba, hex]
          exact hshape (by rw [← hex, hba]; exact hb1.2)
      obtain ⟨filtered, hf4, hfgood⟩ := stage4Filter_ok (contextOf o q) detailed
        (contextOf_usable o q (hctxS q)) hgoodD
      simp only [hf4]
      obtain ⟨fa, hf5⟩ := fashionOf_ok filtered hfgood
      simp only [hf5]
      by_cases hct : (o.exec lookComposerPath (catPromptRow q fa)).truthy
      · obtain ⟨ces, hceq0, hccond⟩ := hcatS q (pyDumps (.list (fa.map PVal.str))) hct
        have hceq : o.exec lookComposerPath (catPromptRow q fa) = .dict ces := hceq0
        have hct2 : (PVal.dict ces).truthy = true := by rw [← hceq]; exact hct
        simp only [hceq, hct2, if_true]
        by_cases hre : (collectCats ces thr).isEmpty
        · rw [if_pos hre]
          refine ⟨_, rfl, ?_⟩
          exact wt_concat _
            (.finalMessage "No relevant product categories found for this query.")
            (by simp [Event.isTerminal]) rfl
        · obtain ⟨recs, h6⟩ := stage6_ok db filtered hfgood (collectCats ces thr) []
            (collectCats_str ces thr hccond)
          rw [if_neg hre, h6]
          refine ⟨_, rfl, ?_⟩
          exact wt_concat _ (.finalResult recs) (by simp [Event.isTerminal]) rfl
      · simp only [hct, Bool.false_eq_true, if_neg, not_false_iff, List.isEmpty_nil,
          if_pos]
        refine ⟨_, rfl, ?_⟩
        exact wt_concat _
          (.finalMessage "No relevant product categories found for this query.")
          (by simp [Event.isTerminal]) rfl

/-- C1 (amended) witness: the concrete well-shaped executor and store
drive the stream to a single terminal event with no exception. -/
theorem stream_terminal_event_amended_witness :
    WellShaped happyOracle ∧ ArrivalSound happyOracle ∧
    (runStream happyOracle happyDB "q" 6).2 = Option.none ∧
    wellTerminated (runStream happyOracle happyDB "q" 6).1 := by
  have har : ArrivalSound happyOracle := fun l => List.Perm.refl l
  have hws : WellShaped happyOracle := by
    refine ⟨?_, ?_, ?_, ?_⟩
    · intro q2 ht
      refine ⟨happyCtxEntries, rfl, ?_, ?_⟩
      · intro w hw
        rw [show lookupEntry happyCtxEntries "occasion" = some (.dict happyOccEntries)
          from rfl] at hw
        cases hw
        exact ⟨happyOccEntries, rfl, by decide⟩
      · intro w hw
        rw [show lookupEntry happyCtxEntries "weather" = some (.dict happyWeatherEntries)
          from rfl] at hw
        cases hw
        exact ⟨happyWeatherEntries, rfl, by decide⟩
    · intro q2 c ht
      exact ⟨[("att_1", .str "Material")], rfl⟩
    · intro p q2 c hp ht
      simp only [promptPaths, PROMPT_MAPPING, List.map_cons, List.map_nil,
        List.mem_cons, List.not_mem_nil, or_false] at hp
      rcases hp with rfl | rfl | rfl | rfl | rfl | rfl | rfl | rfl
      · rw [show happyOracle.exec "./prompts/prompt_1_att_mensagem.txt"
            [("user_query", q2), ("query_context", c)] = PVal.none from rfl] at ht
        exact absurd ht (by decide)
      · rw [show happyOracle.exec "./prompts/prompt_2_att_linha.txt"
            [("user_query", q2), ("query_context", c)] = PVal.none from rfl] at ht
        exact absurd ht (by decide)
      · exact ⟨happyBlockEntries, rfl, ⟨"Material", rfl⟩, by decide⟩
      · rw [show happyOracle.exec "./prompts/prompt_4_att_estrutura.txt"
            [("user_query", q2), ("query_context", c)] = PVal.none from rfl] at ht
        exact absurd ht (by decide)
      · rw [show happyOracle.exec "./prompts/prompt_5_att_textura.txt"
            [("user_query", q2), ("query_context", c)] = PVal.none from rfl] at ht
        exact absurd ht (by decide)
      · rw [show happyOracle.exec "./prompts/prompt_6_att_superficie.txt"
            [("user_query", q2), ("query_context", c)] = PVal.none from rfl] at ht
        exact absurd ht (by decide)
      · rw [show happyOracle.exec "./prompts/prompt_7_att_cor.txt"
            [("user_query", q2), ("query_context", c)] = PVal.none from rfl] at ht
        exact absurd ht (by decide)
      · exact ⟨happyCtxEntries, rfl, ⟨"Ctx", rfl⟩, by decide⟩
    · intro q2 fa ht
      refine ⟨happyCatEntries, rfl, ?_⟩
      intro i hi htr2
      fin_cases hi
      · exact ⟨"Vestidos", rfl⟩
      · exact absurd htr2 (by decide)
      · exact absurd htr2 (by decide)
      · exact absurd htr2 (by decide)
      · exact absurd htr2 (by decide)
  exact ⟨hws, har, (stream_terminal_event_amended happyOracle happyDB "q" 6 hws har).1,
    (stream_terminal_event_amended happyOracle happyDB "q" 6 hws har).2⟩

end Styletelling
